import Mathlib

/-!
Shallow embedding of the timeline-execution core of `MovieClip`
(`src/core/src/display_object/movie_clip.rs`) of the ruffle repository.

Modelling conventions:
* The SWF byte stream is embedded at the decoded-tag granularity: a clip's
  `static_data.swf` slice is a `List Tag`, and the reader/cursor position
  (`tag_stream_pos`, a byte offset in the source) is an index into that list.
  `tag_utils::decode_tags` (code of this repository that is not under `src/`)
  is modelled from the spec at each call site: the callback is invoked on each
  tag in stream order; the scan stops after the stop tag, at the `End` tag, or
  at the end of the stream (spec sections 4.1 and 4.2).
* `Nat` is `u16` in the source; it is modelled as `Nat`, with the one
  subtraction that can wrap (`current_frame -= 1` in `run_goto`) modelled
  explicitly modulo 2^16 (`u16sub1`).  The increments `current_frame += 1` are
  always guarded by `current_frame < x` for a `u16` value `x`, so they cannot
  wrap and are modelled by plain `Nat` successor.
* External collaborators (character library, audio backend, action queue,
  renderer) are modelled by a `Library` record of responses plus an output
  trace of `Event`s recording each collaborator call the core makes.
* Children (`BTreeMap<Depth, DisplayObject>`) are an association list with
  unique keys; the execution list (`first_child` sibling chain) is a list of
  node identities, head first.  A display object is identified by a model-only
  counter `next_nid`; `apply_place_object` on a node is the external
  `DisplayNode` contract and is recorded by appending the delta to the node's
  `applied` list.
-/

namespace RuffleMovieClip

/-- Source type glossary: `Depth` (signed, widened from the `u16` stored in a
tag via `Depth::from`) is modelled as `Int`; `CharacterId` and `FrameNumber`
(both `u16`, frame numbers 1-based) are modelled as `Nat`. -/
def depthOfTag (d : Nat) : Int := (d : Int)

/-- The `u16` wrapping subtraction by one, used to model the single
`current_frame -= 1` in `run_goto` that can underflow a `u16`. -/
def u16sub1 (n : Nat) : Nat := (n + 65535) % 65536

/-- Opaque stand-in for `swf::Matrix`; `Default::default()` is the zero value. -/
structure Matrix where
  m : Int := 0
deriving DecidableEq, Repr, Inhabited

/-- Opaque stand-in for `swf::ColorTransform`. -/
structure ColorTransform where
  c : Int := 0
deriving DecidableEq, Repr, Inhabited

/-- Opaque stand-in for `swf::Color`. -/
structure Color where
  r : Nat := 0
  g : Nat := 0
  b : Nat := 0
deriving DecidableEq, Repr, Inhabited

/-- The `swf::PlaceObjectAction` enum. -/
inductive PlaceObjectAction where
  | place (id : Nat)
  | modify
  | replace (id : Nat)
deriving DecidableEq, Repr, Inhabited

/-- The `swf::PlaceObject` tag payload, restricted to the fields the movie-clip
core reads or writes (action, depth, and the seven optional fields handled by
`GotoPlaceObject::new` and `GotoPlaceObject::merge`). -/
structure PlaceObject where
  action : PlaceObjectAction
  depth : Nat
  matrix : Option Matrix := none
  color_transform : Option ColorTransform := none
  ratio : Option Nat := none
  name : Option String := none
  clip_depth : Option Nat := none
  class_name : Option String := none
  background_color : Option Color := none
deriving DecidableEq, Repr, Inhabited

/-- Predicate: all seven optional fields of a `PlaceObject` delta are defined.
This is the formal reading of the spec's "every absent optional field is
initialized to its default" over the optional fields the core handles. -/
def PlaceObject.allOptionalDefined (po : PlaceObject) : Prop :=
  po.matrix.isSome ∧ po.color_transform.isSome ∧ po.ratio.isSome ∧
  po.name.isSome ∧ po.clip_depth.isSome ∧ po.class_name.isSome ∧
  po.background_color.isSome

instance (po : PlaceObject) : Decidable po.allOptionalDefined := by
  unfold PlaceObject.allOptionalDefined; infer_instance

/-- The aggregated placement delta built during `run_goto`
(struct `GotoPlaceObject` in the source). -/
structure GotoPlaceObject where
  frame : Nat
  place_object : PlaceObject
  index : Nat
deriving DecidableEq, Repr, Inhabited

/-- `GotoPlaceObject::new`: during a rewind, a `Place` delta has its absent
`matrix`, `color_transform`, `ratio`, `name`, `clip_depth` and `class_name`
fields initialized to their defaults (the source initializes exactly these
six fields; `background_color` is not touched). -/
def GotoPlaceObject.new (frame : Nat) (place_object : PlaceObject)
    (is_rewind : Bool) (index : Nat) : GotoPlaceObject :=
  let po :=
    if is_rewind then
      match place_object.action with
      | PlaceObjectAction.place _ =>
        { place_object with
          matrix := some (place_object.matrix.getD default),
          color_transform := some (place_object.color_transform.getD default),
          ratio := some (place_object.ratio.getD default),
          name := some (place_object.name.getD default),
          clip_depth := some (place_object.clip_depth.getD default),
          class_name := some (place_object.class_name.getD default) }
      | _ => place_object
    else place_object
  { frame := frame, place_object := po, index := index }

/-- `GotoPlaceObject::id`: the character id of a `Place`/`Replace` action,
and `0` for `Modify`. -/
def GotoPlaceObject.id (g : GotoPlaceObject) : Nat :=
  match g.place_object.action with
  | PlaceObjectAction.place i => i
  | PlaceObjectAction.replace i => i
  | PlaceObjectAction.modify => 0

/-- `GotoPlaceObject::modifies_original_item`: whether the action is `Replace`. -/
def GotoPlaceObject.modifies_original_item (g : GotoPlaceObject) : Bool :=
  match g.place_object.action with
  | PlaceObjectAction.replace _ => true
  | _ => false

/-- `GotoPlaceObject::depth`. -/
def GotoPlaceObject.depth (g : GotoPlaceObject) : Int :=
  (g.place_object.depth : Int)

/-- `GotoPlaceObject::merge(&mut self, next: &mut GotoPlaceObject)`: merge the
newer delta `n` into the existing command `c` at the same depth.  Returns the
updated pair `(c, n)`; each defined optional field of `n` is moved
(`Option::take`) into `c`. -/
def GotoPlaceObject.merge (c n : GotoPlaceObject) :
    GotoPlaceObject × GotoPlaceObject :=
  let cur := c.place_object
  let nxt := n.place_object
  let actionFrame : PlaceObjectAction × Nat :=
    match nxt.action with
    | PlaceObjectAction.modify => (cur.action, c.frame)
    | a => (a, n.frame)
  let cpo : PlaceObject :=
    { cur with
      action := actionFrame.1,
      matrix := if nxt.matrix.isSome then nxt.matrix else cur.matrix,
      color_transform :=
        if nxt.color_transform.isSome then nxt.color_transform
        else cur.color_transform,
      ratio := if nxt.ratio.isSome then nxt.ratio else cur.ratio,
      name := if nxt.name.isSome then nxt.name else cur.name,
      clip_depth := if nxt.clip_depth.isSome then nxt.clip_depth else cur.clip_depth,
      class_name := if nxt.class_name.isSome then nxt.class_name else cur.class_name,
      background_color :=
        if nxt.background_color.isSome then nxt.background_color
        else cur.background_color }
  let npo : PlaceObject :=
    { nxt with
      matrix := none, color_transform := none, ratio := none, name := none,
      clip_depth := none, class_name := none, background_color := none }
  ({ c with frame := actionFrame.2, place_object := cpo },
   { n with place_object := npo })

/-- The decoded SWF control tags handled by the movie-clip core.  A constructor
such as `defineCharacter` stands for the family of `Define*` tags that only
register an asset into the character library during preload; `other` stands for
every recognized tag the given scan ignores (`_ => Ok(())` arms). -/
inductive Tag where
  | showFrame
  | endTag
  | placeObject (po : PlaceObject)
  | removeObject (depth : Nat)
  | doAction (bytecode : Nat)
  | setBackgroundColor (color : Color)
  | startSound (sid : Nat) (sound_event : Nat)
  | soundStreamBlock
  | soundStreamHead
  | frameLabel (label : String)
  | defineCharacter (id : Nat)
  | defineFont4
  | other
deriving DecidableEq, Repr, Inhabited

/-- Events of `crate::events::ClipEvent` (constructor `initializeClip` models
`ClipEvent::Initialize`). -/
inductive ClipEvent where
  | construct
  | data
  | dragOut
  | dragOver
  | enterFrame
  | initializeClip
  | keyUp
  | keyDown
  | keyPress (key_code : Nat)
  | load
  | mouseUp
  | mouseDown
  | mouseMove
  | press
  | rollOut
  | rollOver
  | release
  | releaseOutside
  | unload
deriving DecidableEq, Repr, Inhabited

/-- Whether an event is a `KeyPress { .. }` event (the `matches!` test in
`run_clip_event`). -/
def ClipEvent.isKeyPress : ClipEvent → Bool
  | ClipEvent.keyPress _ => true
  | _ => false

/-- A clip action (`struct ClipAction`): an event selector plus a bytecode
payload (the `SwfSlice` is modelled by an opaque handle). -/
structure ClipAction where
  event : ClipEvent
  action_data : Nat
deriving DecidableEq, Repr, Inhabited

/-- A child display object as seen from its parent clip (the external
`DisplayObject` contract).  `nid` is a model-only identity used for the
execution-list links; `applied` records every `apply_place_object` delta in
order; `copied_from` records `copy_display_properties_from`. -/
structure DisplayNode where
  nid : Nat
  char_id : Nat
  depth : Int
  place_frame : Nat
  removed : Bool := false
  copied_from : Option Nat := none
  applied : List PlaceObject := []
deriving DecidableEq, Repr, Inhabited

/-- The queued action payloads (`crate::context::ActionType`) the embedded
operations produce. -/
inductive ActionType where
  | normal (bytecode : Nat)
  | method (object : Nat) (name : String)
deriving DecidableEq, Repr, Inhabited

/-- Trace events: one entry per observable collaborator call made by the core
(action queue, audio backend, renderer background color, child lifecycle). -/
inductive Event where
  | queuedAction (a : ActionType) (is_unload : Bool)
  | stoppedStream (handle : Nat)
  | startedStream (frame : Nat)
  | audioStartSound (sid : Nat)
  | audioStopSounds (sid : Nat)
  | setBgColor (c : Color)
  | unloadedChild (n : DisplayNode)
  | instantiatedChild (n : DisplayNode)
  | ranChildFirstFrame (nid : Nat)
  | logError
deriving DecidableEq, Repr, Inhabited

/-- The per-instance mutable state of a movie clip (`MovieClipData`) together
with the static data it references (`MovieClipStatic`: `tags`, `total_frames`,
`frame_labels`, `audio_stream_info`). -/
structure MovieClipState where
  tags : List Tag
  total_frames : Nat
  frame_labels : List (String × Nat)
  audio_stream_info : Bool
  tag_stream_pos : Nat
  current_frame : Nat
  audio_stream : Option Nat
  children : List (Int × DisplayNode)
  first_child : List Nat
  object : Option Nat
  clip_actions : List ClipAction
  playing : Bool
  initialized : Bool
  next_nid : Nat
deriving DecidableEq, Repr, Inhabited

/-- Collaborator responses: the character library (`instantiate_by_id` succeeds
on the listed ids), the sound registry (`get_sound`), the audio backend's
`is_sound_playing_with_handle` answer, and the handle `start_stream` returns
(`none` models `Err`). -/
structure Library where
  characters : List Nat
  sounds : List Nat
  sound_playing : Nat → Bool
  stream_handle : Option Nat

/-- Lookup in the children map (`BTreeMap::get`). -/
def mapGet (m : List (Int × DisplayNode)) (d : Int) : Option DisplayNode :=
  (m.find? (fun p => p.1 == d)).map (fun p => p.2)

/-- Insert in the children map (`BTreeMap::insert`), returning the previous
occupant of the depth if any. -/
def mapInsert (m : List (Int × DisplayNode)) (d : Int) (c : DisplayNode) :
    List (Int × DisplayNode) × Option DisplayNode :=
  match m.find? (fun p => p.1 == d) with
  | some p => (m.map (fun q => if q.1 == d then (d, c) else q), some p.2)
  | none => (m ++ [(d, c)], none)

/-- Remove from the children map (`BTreeMap::remove`), returning the removed
node if any. -/
def mapRemove (m : List (Int × DisplayNode)) (d : Int) :
    List (Int × DisplayNode) × Option DisplayNode :=
  ((m.filter (fun p => p.1 != d)), (m.find? (fun p => p.1 == d)).map (fun p => p.2))

/-- Update the node stored at a depth by a function (models mutating the
`DisplayObject` behind the map entry through its cell). -/
def mapModify (m : List (Int × DisplayNode)) (d : Int)
    (f : DisplayNode → DisplayNode) : List (Int × DisplayNode) :=
  m.map (fun p => if p.1 == d then (p.1, f p.2) else p)

/-- The external `apply_place_object` contract on a child: record the delta. -/
def DisplayNode.apply_place_object (n : DisplayNode) (po : PlaceObject) :
    DisplayNode :=
  { n with applied := n.applied ++ [po] }

/-- `MovieClipData::stop_audio_stream`: take the handle and stop the stream. -/
def stop_audio_stream (s : MovieClipState) : MovieClipState × List Event :=
  match s.audio_stream with
  | some h => ({ s with audio_stream := none }, [Event.stoppedStream h])
  | none => (s, [])

/-- `MovieClipData::stop`: clear the `Playing` flag and stop the audio stream. -/
def stopClip (s : MovieClipState) : MovieClipState × List Event :=
  stop_audio_stream { s with playing := false }

/-- `MovieClipData::play`: set the `Playing` flag, but only for clips with more
than one frame. -/
def playClip (s : MovieClipState) : MovieClipState :=
  if 1 < s.total_frames then { s with playing := true } else s

/-- ASCII lowercasing of one character (`u8::make_ascii_lowercase`). -/
def lowerChar (c : Char) : Char :=
  if 65 ≤ c.toNat ∧ c.toNat ≤ 90 then Char.ofNat (c.toNat + 32) else c

/-- ASCII lowercasing of a string (`str::make_ascii_lowercase` /
`str::to_ascii_lowercase`). -/
def make_ascii_lowercase (s : String) : String :=
  String.mk (s.data.map lowerChar)

/-- `MovieClipData::frame_label` (preload handler for a `FrameLabel` tag):
lowercase the label and insert it mapping to `cur_frame` if the entry is
vacant; otherwise keep the map unchanged and log a duplicate warning.  The
returned `Bool` is true iff the duplicate warning was logged. -/
def frame_label (label : String) (cur_frame : Nat)
    (labels : List (String × Nat)) :
    List (String × Nat) × Bool :=
  let l := make_ascii_lowercase label
  if (labels.lookup l).isSome then (labels, true)
  else (labels ++ [(l, cur_frame)], false)

/-- `MovieClip::frame_label_to_number`: lowercase the query and look it up. -/
def frame_label_to_number (labels : List (String × Nat))
    (query : String) : Option Nat :=
  labels.lookup (make_ascii_lowercase query)

/-- Result of clip-event dispatch (`crate::events::ClipEventResult`). -/
inductive ClipEventResult where
  | notHandled
  | handled
deriving DecidableEq, Repr, Inhabited

/-- `MovieClipData::run_clip_event`.  `method_name` is the external
`ClipEvent::method_name` table (code of this repository outside `src/`,
modelled as a parameter: the conventional ActionScript handler name of an
event, e.g. `onEnterFrame`, when it has one).  The result is the handled flag
together with the queued `(action, is_unload)` pairs in queue order; `none`
models the `self.object.unwrap()` panic reached when the method-call branch
runs with no script object. -/
def run_clip_event (method_name : ClipEvent → Option String)
    (swf_version : Nat) (clip_actions : List ClipAction) (object : Option Nat)
    (event : ClipEvent) :
    Option (ClipEventResult × List (ActionType × Bool)) :=
  if 5 ≤ swf_version then
    let matching := clip_actions.filter (fun a => a.event == event)
    let folded :=
      matching.foldl
        (fun (acc : ClipEventResult × List (ActionType × Bool)) ca =>
          ((if ca.event.isKeyPress then ClipEventResult.handled else acc.1),
           acc.2 ++ [(ActionType.normal ca.action_data,
                      event == ClipEvent.unload)]))
        (ClipEventResult.notHandled, [])
    if 6 ≤ swf_version then
      match method_name event with
      | some nm =>
        match object with
        | some o =>
          some (folded.1,
                folded.2 ++ [(ActionType.method o nm,
                              event == ClipEvent.unload)])
        | none => none
      | none => some folded
    else some folded
  else some (ClipEventResult.notHandled, [])

/-- `MovieClip::instantiate_child`: instantiate a character by id, insert it at
the depth (unloading and unlinking any previous occupant), push it on the
execution list, set its depth and `place_frame` (the clip's `current_frame`),
copy display properties from the evicted child when requested (`Replace`),
apply the place delta, and run the child's first frame.  Returns the updated
state, the trace, and whether instantiation succeeded (a missing character id
logs an error and is non-fatal). -/
def instantiate_child (lib : Library) (s : MovieClipState) (id : Nat)
    (depth : Int) (place_object : PlaceObject)
    (copy_previous_properties : Bool) :
    MovieClipState × List Event × Bool :=
  if lib.characters.contains id then
    let prev := mapGet s.children depth
    let child : DisplayNode :=
      { nid := s.next_nid, char_id := id, depth := depth,
        place_frame := s.current_frame, removed := false,
        copied_from :=
          if copy_previous_properties then prev.map (fun p => p.nid) else none,
        applied := [place_object] }
    let m := (mapInsert s.children depth child).1
    let unloadTrace :=
      match prev with
      | some pc => [Event.unloadedChild { pc with removed := true }]
      | none => []
    let fc :=
      child.nid ::
        (match prev with
         | some pc => s.first_child.erase pc.nid
         | none => s.first_child)
    ({ s with children := m, first_child := fc, next_nid := s.next_nid + 1 },
     unloadTrace ++
       [Event.instantiatedChild child, Event.ranChildFirstFrame child.nid],
     true)
  else (s, [Event.logError], false)

/-- State carried by the tag loop of `run_frame_internal`. -/
structure FrameExec where
  s : MovieClipState
  pos : Nat
  tr : List Event
  has_stream_block : Bool
deriving Inhabited

/-- One tag-handler dispatch of the `run_frame_internal` tag callback
(`DoAction`, `PlaceObject[1-4]`, `RemoveObject[12]`, `SetBackgroundColor`,
`StartSound`, `SoundStreamBlock`; every other tag is ignored). -/
def execTagEffect (lib : Library) (run_display_actions : Bool)
    (s : MovieClipState) (t : Tag) : MovieClipState × List Event × Bool :=
  match t with
  | Tag.doAction bc =>
    (s, [Event.queuedAction (ActionType.normal bc) false], false)
  | Tag.placeObject po =>
    if run_display_actions then
      match po.action with
      | PlaceObjectAction.place id =>
        let r := instantiate_child lib s id (po.depth : Int) po false
        (r.1, r.2.1, false)
      | PlaceObjectAction.replace id =>
        let r := instantiate_child lib s id (po.depth : Int) po true
        (r.1, r.2.1, false)
      | PlaceObjectAction.modify =>
        match mapGet s.children (po.depth : Int) with
        | some _ =>
          let m := mapModify s.children (po.depth : Int)
            (fun c => c.apply_place_object po)
          ({ s with children := m }, [], false)
        | none => (s, [], false)
    else (s, [], false)
  | Tag.removeObject d =>
    if run_display_actions then
      let r := mapRemove s.children (d : Int)
      match r.2 with
      | some child =>
        ({ s with children := r.1, first_child := s.first_child.erase child.nid },
         [Event.unloadedChild { child with removed := true }], false)
      | none => (s, [], false)
    else (s, [], false)
  | Tag.setBackgroundColor c => (s, [Event.setBgColor c], false)
  | Tag.startSound sid sev =>
    if lib.sounds.contains sid then
      -- sound_event: 0 = Event (always start), 1 = Start (start unless an
      -- instance is already playing), 2 = Stop (stop all instances).
      if sev == 0 then (s, [Event.audioStartSound sid], false)
      else if sev == 1 then
        if lib.sound_playing sid then (s, [], false)
        else (s, [Event.audioStartSound sid], false)
      else (s, [Event.audioStopSounds sid], false)
    else (s, [], false)
  | Tag.soundStreamBlock =>
    -- `sound_stream_block`: start a stream if a header exists and none is
    -- active; also marks `has_stream_block` for this frame.
    if s.audio_stream_info ∧ s.audio_stream = none then
      ({ s with audio_stream := lib.stream_handle },
       [Event.startedStream (s.current_frame + 1)], true)
    else (s, [], true)
  | _ => (s, [], false)

/-- The tag loop of `run_frame_internal`: decode tags from the cursor until a
`ShowFrame` (the stop tag), the `End` tag, or the end of the stream, applying
each handler.  Structural recursion over the remaining tag list. -/
def execFrameTagsLoop (lib : Library) (run_display_actions : Bool) :
    List Tag → FrameExec → FrameExec
  | [], fe => fe
  | t :: ts, fe =>
    match t with
    | Tag.showFrame => { fe with pos := fe.pos + 1 }
    | Tag.endTag => { fe with pos := fe.pos + 1 }
    | _ =>
      let r := execTagEffect lib run_display_actions fe.s t
      execFrameTagsLoop lib run_display_actions ts
        { s := r.1, pos := fe.pos + 1, tr := fe.tr ++ r.2.1,
          has_stream_block := fe.has_stream_block || r.2.2 }

/-- The body of `run_frame_internal` after the playhead-advance step: run the
current frame's tags, save the new `tag_stream_pos`, and stop the audio stream
if no `SoundStreamBlock` was seen this frame. -/
def execFrameTags (lib : Library) (s : MovieClipState)
    (run_display_actions : Bool) : MovieClipState × List Event :=
  let fe := execFrameTagsLoop lib run_display_actions
    (s.tags.drop s.tag_stream_pos)
    { s := s, pos := s.tag_stream_pos, tr := [], has_stream_block := false }
  let s1 := { fe.s with tag_stream_pos := fe.pos }
  if fe.has_stream_block then (s1, fe.tr)
  else
    let r := stop_audio_stream s1
    (r.1, fe.tr ++ r.2)

/-- The rewind phase of `run_goto`: if the target frame is before the current
frame, reset `tag_stream_pos` to 0 and `current_frame` to 0, and remove every
child placed after the destination frame (each is removed from the children
map, unlinked from the execution list, and unloaded).  Returns the state, the
trace, and the `is_rewind` flag. -/
def gotoRewindPhase (s : MovieClipState) (frame : Nat) :
    MovieClipState × List Event × Bool :=
  if frame < s.current_frame then
    let s1 := { s with tag_stream_pos := 0, current_frame := 0 }
    let evicted := s1.children.filter (fun p => frame < p.2.place_frame)
    let r :=
      evicted.foldl
        (fun (acc : MovieClipState × List Event) p =>
          let m := (mapRemove acc.1.children p.1).1
          let fc := acc.1.first_child.erase p.2.nid
          ({ acc.1 with children := m, first_child := fc },
           acc.2 ++ [Event.unloadedChild { p.2 with removed := true }]))
        (s1, [])
    (r.1, r.2, true)
  else (s, [], false)

/-- `Vec::swap_remove`: replace the element at `i` with the last element and
pop.  Call sites always pass an in-bounds index. -/
def swapRemove (l : List GotoPlaceObject) (i : Nat) : List GotoPlaceObject :=
  (l.set i (l.getLastD default)).dropLast

/-- `MovieClipData::goto_place_object`: build a `GotoPlaceObject` from the tag
(at the clip's current frame, with rewind normalization and the running
`index`) and merge it into the pending command at the same depth, or append
it. -/
def goto_place_object (current_frame : Nat) (po : PlaceObject)
    (is_rewind : Bool) (index : Nat) (goto_commands : List GotoPlaceObject) :
    List GotoPlaceObject :=
  let goto_place := GotoPlaceObject.new current_frame po is_rewind index
  match goto_commands.findIdx? (fun o => o.depth == goto_place.depth) with
  | some i =>
    goto_commands.set i
      ((goto_commands.getD i default).merge goto_place).1
  | none => goto_commands ++ [goto_place]

/-- `MovieClipData::goto_remove_object`: drop any pending goto command at the
depth; when not rewinding, also remove and unload the child currently at that
depth (fast-forward semantics). -/
def goto_remove_object (d : Nat) (s : MovieClipState)
    (goto_commands : List GotoPlaceObject) (is_rewind : Bool) :
    MovieClipState × List Event × List GotoPlaceObject :=
  let depth : Int := (d : Int)
  let cmds :=
    match goto_commands.findIdx? (fun o => o.depth == depth) with
    | some i => swapRemove goto_commands i
    | none => goto_commands
  if is_rewind then (s, [], cmds)
  else
    let r := mapRemove s.children depth
    match r.2 with
    | some child =>
      let fc := s.first_child.erase child.nid
      ({ s with children := r.1, first_child := fc },
       [Event.unloadedChild { child with removed := true }], cmds)
    | none => (s, [], cmds)

/-- State carried by the delta-aggregation walk of `run_goto`. -/
structure GotoWalk where
  s : MovieClipState
  cmds : List GotoPlaceObject
  idx : Nat
  pos : Nat
  tr : List Event
deriving Inhabited

/-- One frame of the aggregation walk: decode tags until `ShowFrame` (or `End`
or end of stream), dispatching `PlaceObject[1-4]` to `goto_place_object` (the
`index` counter is incremented before each) and `RemoveObject[12]` to
`goto_remove_object`; every other tag is ignored. -/
def gotoFrameTagsLoop (is_rewind : Bool) : List Tag → GotoWalk → GotoWalk
  | [], w => w
  | t :: ts, w =>
    match t with
    | Tag.showFrame => { w with pos := w.pos + 1 }
    | Tag.endTag => { w with pos := w.pos + 1 }
    | Tag.placeObject po =>
      let i := w.idx + 1
      let cs := goto_place_object w.s.current_frame po is_rewind i w.cmds
      gotoFrameTagsLoop is_rewind ts
        { w with pos := w.pos + 1, idx := i, cmds := cs }
    | Tag.removeObject d =>
      let r := goto_remove_object d w.s w.cmds is_rewind
      let tr2 := w.tr ++ r.2.1
      gotoFrameTagsLoop is_rewind ts
        { w with pos := w.pos + 1, s := r.1, tr := tr2, cmds := r.2.2 }
    | _ => gotoFrameTagsLoop is_rewind ts { w with pos := w.pos + 1 }

/-- The outer aggregation loop of `run_goto`: while `current_frame` is below
the clamped target and the previous frame start is inside the stream, advance
the frame counter, remember the frame's start position, and aggregate that
frame's tags.  Each iteration increments `current_frame`, so a fuel of
`clamped` steps is exact; the returned `Nat` is the final `frame_pos`. -/
def gotoWalkLoop (is_rewind : Bool) (clamped len : Nat) :
    Nat → GotoWalk → Nat → GotoWalk × Nat
  | 0, w, frame_pos => (w, frame_pos)
  | fuel + 1, w, frame_pos =>
    if w.s.current_frame < clamped ∧ frame_pos < len then
      let w1 :=
        { w with s := { w.s with current_frame := w.s.current_frame + 1 } }
      let fp := w1.pos
      let w2 := gotoFrameTagsLoop is_rewind (w1.s.tags.drop w1.pos) w1
      gotoWalkLoop is_rewind clamped len fuel w2 fp
    else (w, frame_pos)

/-- Insert a command into a list sorted by ascending `index`, after any equal
indices (stable). -/
def insertByIndex (g : GotoPlaceObject) :
    List GotoPlaceObject → List GotoPlaceObject
  | [] => [g]
  | h :: t =>
    if g.index < h.index then g :: h :: t else h :: insertByIndex g t

/-- Stable sort of the goto commands by `index`
(`goto_commands.sort_by_key(|params| params.index)`). -/
def sortByIndex : List GotoPlaceObject → List GotoPlaceObject
  | [] => []
  | h :: t => insertByIndex h (sortByIndex t)

/-- The `run_goto_command` closure of `run_goto`: for a pure-`Modify` command
(`id() == 0`) or any command during a rewind, re-use the child currently at
the depth by applying the final delta; otherwise instantiate a replacement
child and set its `place_frame` to the command's frame (the frame at which the
object would have been placed). -/
def run_goto_command (lib : Library) (is_rewind : Bool) (s : MovieClipState)
    (params : GotoPlaceObject) : MovieClipState × List Event :=
  let instPath : MovieClipState × List Event :=
    let r := instantiate_child lib s params.id params.depth
      params.place_object params.modifies_original_item
    if r.2.2 then
      let m := mapModify r.1.children params.depth
        (fun c => { c with place_frame := params.frame })
      ({ r.1 with children := m }, r.2.1)
    else (r.1, r.2.1)
  match mapGet s.children params.depth with
  | some _ =>
    if params.id == 0 || is_rewind then
      let m := mapModify s.children params.depth
        (fun c => c.apply_place_object params.place_object)
      ({ s with children := m }, [])
    else instPath
  | none => instPath

/-- Apply a list of goto commands in order, threading the state and
concatenating the traces. -/
def applyGotoCmds (lib : Library) (is_rewind : Bool)
    (cmds : List GotoPlaceObject) (s : MovieClipState) :
    MovieClipState × List Event :=
  cmds.foldl
    (fun (acc : MovieClipState × List Event) p =>
      let r := run_goto_command lib is_rewind acc.1 p
      (r.1, acc.2 ++ r.2))
    (s, [])

/-- The clamp of the goto target to `total_frames`
(`clamped_frame` in `run_goto`). -/
def gotoClamped (s : MovieClipState) (frame : Nat) : Nat :=
  if frame ≤ s.total_frames then frame else s.total_frames

/-- The whole delta-aggregation walk of `run_goto`, from the state left by the
rewind phase: initial `frame_pos = tag_stream_pos`, empty command list, index
counter 0.  Returns the walk state and the final `frame_pos`. -/
def gotoWalkOf (s : MovieClipState) (frame : Nat) (is_rewind : Bool) :
    GotoWalk × Nat :=
  gotoWalkLoop is_rewind (gotoClamped s frame) s.tags.length
    (gotoClamped s frame)
    { s := s, cmds := [], idx := 0, pos := s.tag_stream_pos, tr := [] }
    s.tag_stream_pos

/-- `MovieClip::run_goto`, fuelled.  The fuel bounds the one recursive edge:
the re-run of the final frame (`run_frame_internal(self, context, false)`)
takes the looping branch `run_goto(1)` only when the clip's state is
degenerate; the body of that branch is the inlined `run_frame_internal` with
`run_goto` at one less fuel.  Fuel 2 is sufficient for every call the program
makes (the inner `run_goto(1)` of a re-run final frame never recurses
further). -/
def runGotoF : Nat → Library → MovieClipState → Nat →
    MovieClipState × List Event
  | 0, _, s, _ => (s, [])
  | n + 1, lib, s, frame =>
    -- Stop the stream sound first (in case the goto restarts it).
    let a0 := stop_audio_stream s
    let rp := gotoRewindPhase a0.1 frame
    let s1 := rp.1
    let is_rewind := rp.2.2
    let clamped_frame := gotoClamped s1 frame
    let wr := gotoWalkOf s1 frame is_rewind
    let w := wr.1
    let frame_pos := wr.2
    let hit_target_frame := w.s.current_frame == frame
    let sorted := sortByIndex w.cmds
    let p1 := applyGotoCmds lib is_rewind
      (sorted.filter (fun params => params.frame < frame)) w.s
    let mid :=
      if hit_target_frame then
        -- `current_frame -= 1; tag_stream_pos = frame_pos;`
        -- then `run_frame_internal(.., false)` (inlined body).
        let cf := u16sub1 p1.1.current_frame
        let sm := { p1.1 with current_frame := cf, tag_stream_pos := frame_pos }
        if sm.current_frame < sm.total_frames then
          execFrameTags lib
            { sm with current_frame := sm.current_frame + 1 } false
        else if 1 < sm.total_frames then
          runGotoF n lib sm 1
        else
          let st := stopClip sm
          let ex := execFrameTags lib st.1 false
          (ex.1, st.2 ++ ex.2)
      else ({ p1.1 with current_frame := clamped_frame }, [])
    let p2 := applyGotoCmds lib is_rewind
      (sorted.filter (fun params => frame ≤ params.frame)) mid.1
    (p2.1, a0.2 ++ rp.2.1 ++ w.tr ++ p1.2 ++ mid.2 ++ p2.2)

/-- `MovieClip::run_goto` (fuel 2 covers every reachable nesting; the inner
`run_goto(1)` of a re-run final frame never recurses further). -/
def run_goto (lib : Library) (s : MovieClipState) (frame : Nat) :
    MovieClipState × List Event :=
  runGotoF 2 lib s frame

/-- `MovieClip::run_frame_internal`: advance the playhead (increment below the
last frame; loop via `run_goto(1)` for a multi-frame clip at the last frame —
this branch returns; mark a single-frame clip stopped and fall through), then
run the frame's tags. -/
def run_frame_internal (lib : Library) (s : MovieClipState)
    (run_display_actions : Bool) : MovieClipState × List Event :=
  if s.current_frame < s.total_frames then
    execFrameTags lib { s with current_frame := s.current_frame + 1 }
      run_display_actions
  else if 1 < s.total_frames then
    run_goto lib s 1
  else
    let st := stopClip s
    let ex := execFrameTags lib st.1 run_display_actions
    (ex.1, st.2 ++ ex.2)

/-- `MovieClip::goto_frame`: update the play state first (stop or play), clamp
the frame number from below to 1, and seek only when the clamped target
differs from the current frame. -/
def goto_frame (lib : Library) (s : MovieClipState) (frame : Nat)
    (stop : Bool) : MovieClipState × List Event :=
  let first :=
    if stop then stopClip s else (playClip s, ([] : List Event))
  let f := if frame < 1 then 1 else frame
  if f != first.1.current_frame then
    let r := run_goto lib first.1 f
    (r.1, first.2 ++ r.2)
  else first

/-- The draft built by the preload pass: the registered character ids, the
frame-label map, the local frame counter, the depth-to-morph-shape-id map used
to track ratios, whether a sound-stream header was seen, and the count of
duplicate-label warnings. -/
structure PreloadResult where
  characters : List Nat
  frame_labels : List (String × Nat)
  cur_frame : Nat
  ids : List (Int × Nat)
  audio_stream_info : Bool
  dup_label_warnings : Nat
deriving DecidableEq, Repr, Inhabited

/-- `MovieClipData::preload_place_object`: track morph-shape ratios through the
local depth-to-id map (the `register_ratio` renderer call itself is outside
the embedded state). -/
def preload_place_object (morph_shapes : List Nat) (po : PlaceObject)
    (ids : List (Int × Nat)) : List (Int × Nat) :=
  let d : Int := (po.depth : Int)
  match po.action with
  | PlaceObjectAction.place id =>
    if morph_shapes.contains id then
      (ids.filter (fun p => p.1 != d)) ++ [(d, id)]
    else ids
  | PlaceObjectAction.modify =>
    match ids.lookup d with
    | some id =>
      if morph_shapes.contains id then
        (ids.filter (fun p => p.1 != d)) ++ [(d, id)]
      else ids
    | none => ids
  | PlaceObjectAction.replace id =>
    if morph_shapes.contains id then
      (ids.filter (fun p => p.1 != d)) ++ [(d, id)]
    else ids.filter (fun p => p.1 != d)

/-- The tag loop of `MovieClip::preload` (stop tag: `End`).  The `Define*`
family registers characters; `FrameLabel` goes through `frame_label`;
`ShowFrame` advances the local frame counter; `PlaceObject`/`RemoveObject`
only maintain the morph-shape ratio map; `SoundStreamHead[2]` records the
stream header.  `none` models the process abort: the `DefineFont4` arm of the
preload tag callback is `unimplemented!()` and panics
(movie_clip.rs line 218). -/
def preloadLoop (morph_shapes : List Nat) :
    List Tag → PreloadResult → Option PreloadResult
  | [], r => some r
  | t :: ts, r =>
    match t with
    | Tag.endTag => some r
    | Tag.defineFont4 => none
    | Tag.defineCharacter id =>
      preloadLoop morph_shapes ts
        { r with characters := r.characters ++ [id] }
    | Tag.frameLabel lab =>
      let fl := frame_label lab r.cur_frame r.frame_labels
      preloadLoop morph_shapes ts
        { r with frame_labels := fl.1,
                 dup_label_warnings :=
                   r.dup_label_warnings + (if fl.2 then 1 else 0) }
    | Tag.showFrame =>
      preloadLoop morph_shapes ts { r with cur_frame := r.cur_frame + 1 }
    | Tag.placeObject po =>
      preloadLoop morph_shapes ts
        { r with ids := preload_place_object morph_shapes po r.ids }
    | Tag.removeObject d =>
      preloadLoop morph_shapes ts
        { r with ids := r.ids.filter (fun p => p.1 != ((d : Int) : Int)) }
    | Tag.soundStreamHead =>
      preloadLoop morph_shapes ts { r with audio_stream_info := true }
    | _ => preloadLoop morph_shapes ts r

/-- `MovieClip::preload`: single scan from the cursor with a local frame
counter starting at 1 over a fresh draft; `none` models a panic during the
scan. -/
def preload (morph_shapes : List Nat) (s : MovieClipState) :
    Option PreloadResult :=
  preloadLoop morph_shapes (s.tags.drop s.tag_stream_pos)
    { characters := [], frame_labels := [], cur_frame := 1, ids := [],
      audio_stream_info := false, dup_label_warnings := 0 }

/-- A small concrete collaborator environment used by the concrete-input
theorems: characters 7 and 8 are instantiable, no sounds, no stream handle. -/
def lib0 : Library :=
  { characters := [7, 8], sounds := [], sound_playing := fun _ => false,
    stream_handle := none }

/-- A fresh single-frame clip state with an empty tag stream, used as the base
of the concrete-input theorems. -/
def baseState : MovieClipState :=
  { tags := [], total_frames := 1, frame_labels := [],
    audio_stream_info := false, tag_stream_pos := 0, current_frame := 0,
    audio_stream := none, children := [], first_child := [],
    object := some 100, clip_actions := [], playing := true,
    initialized := false, next_nid := 0 }

/-- A single-frame clip positioned after its only `ShowFrame`, with a
`DoAction` tag following it in the stream. -/
def c1State : MovieClipState :=
  { baseState with
    tags := [Tag.showFrame, Tag.doAction 7],
    total_frames := 1,
    current_frame := 1,
    tag_stream_pos := 1 }

/-- A single-frame clip at frame 1 whose frame-1 tags contain a `DoAction`:
used to show that an out-of-bounds goto does not re-run the target frame even
though the walk ends at the clamped frame. -/
def c3State : MovieClipState :=
  { baseState with
    tags := [Tag.doAction 9, Tag.showFrame],
    total_frames := 1,
    current_frame := 1,
    tag_stream_pos := 0 }

/-- A `Place` delta with every optional field absent. -/
def c5po : PlaceObject :=
  { action := PlaceObjectAction.place 3, depth := 1 }

/-- A clip whose stream contains a `DefineFont4` tag. -/
def c6State : MovieClipState :=
  { baseState with tags := [Tag.defineFont4] }

/-- Concrete existing goto command for the merge witnesses. -/
def gpA : GotoPlaceObject :=
  { frame := 1,
    place_object :=
      { action := PlaceObjectAction.place 7, depth := 4,
        matrix := some { m := 2 }, ratio := some 6 },
    index := 1 }

/-- Concrete newer goto command for the merge witnesses. -/
def gpB : GotoPlaceObject :=
  { frame := 2,
    place_object :=
      { action := PlaceObjectAction.replace 8, depth := 4,
        matrix := some { m := 9 }, name := some "b" },
    index := 3 }

/-- A three-frame clip sitting at frame 2 (for the `goto_frame` no-seek
inputs). -/
def c10State : MovieClipState :=
  { baseState with total_frames := 3, current_frame := 2 }

/-- A two-frame clip before its first advance (for the `run_frame_internal`
increment-arm inputs). -/
def c1wState : MovieClipState :=
  { baseState with
    tags := [Tag.doAction 3, Tag.showFrame, Tag.showFrame],
    total_frames := 2 }

/-- A three-frame clip at frame 3 with two children: one placed on frame 1
(node 1 at depth 1) and one placed on frame 3 (node 2 at depth 2). -/
def c2State : MovieClipState :=
  { baseState with
    tags := [Tag.showFrame, Tag.showFrame, Tag.showFrame],
    total_frames := 3,
    current_frame := 3,
    tag_stream_pos := 3,
    children :=
      [(1, { nid := 1, char_id := 7, depth := 1, place_frame := 1 }),
       (2, { nid := 2, char_id := 8, depth := 2, place_frame := 3 })],
    first_child := [2, 1],
    next_nid := 3 }

/-- A two-frame clip at its final frame (for the playhead-bound inputs). -/
def c9State : MovieClipState :=
  { baseState with
    tags := [Tag.showFrame, Tag.showFrame],
    total_frames := 2,
    current_frame := 2,
    tag_stream_pos := 2 }

/-- A two-frame clip at frame 1 whose frame-2 tags contain a `DoAction`
(for the hit-target goto inputs). -/
def c3wState : MovieClipState :=
  { baseState with
    tags := [Tag.showFrame, Tag.doAction 4, Tag.showFrame],
    total_frames := 2,
    current_frame := 1,
    tag_stream_pos := 1 }

/-- Method-name table with no conventional handler names (for version-4
dispatch inputs, where it is never consulted). -/
def c8mnameNone : ClipEvent → Option String := fun _ => none

/-- Modelled from the spec: `ClipEvent::method_name` (code of this repository
outside `src/`), restricted to the entry the concrete dispatch inputs use:
`EnterFrame` has the conventional handler name `onEnterFrame`. -/
def c8mname6 : ClipEvent → Option String := fun e =>
  match e with
  | ClipEvent.enterFrame => some "onEnterFrame"
  | _ => none

/-! Preservation lemmas: which state fields each embedded operation leaves
unchanged. -/

theorem instantiate_child_fields (lib : Library) (s : MovieClipState)
    (id : Nat) (d : Int) (po : PlaceObject) (cp : Bool) :
    (instantiate_child lib s id d po cp).1.current_frame = s.current_frame ∧
    (instantiate_child lib s id d po cp).1.total_frames = s.total_frames ∧
    (instantiate_child lib s id d po cp).1.playing = s.playing ∧
    (instantiate_child lib s id d po cp).1.tag_stream_pos = s.tag_stream_pos ∧
    (instantiate_child lib s id d po cp).1.audio_stream = s.audio_stream ∧
    (instantiate_child lib s id d po cp).1.tags = s.tags := by
  unfold instantiate_child
  split <;> simp

theorem execTagEffect_fields (lib : Library) (rd : Bool) (s : MovieClipState)
    (t : Tag) :
    (execTagEffect lib rd s t).1.current_frame = s.current_frame ∧
    (execTagEffect lib rd s t).1.total_frames = s.total_frames ∧
    (execTagEffect lib rd s t).1.playing = s.playing ∧
    (execTagEffect lib rd s t).1.tag_stream_pos = s.tag_stream_pos ∧
    (execTagEffect lib rd s t).1.tags = s.tags := by
  cases t with
  | placeObject po =>
    rcases hpo : po.action with id | _ | id <;>
      simp only [execTagEffect, hpo] <;> split <;> try simp
    · obtain ⟨h1, h2, h3, h4, h5, h6⟩ :=
        instantiate_child_fields lib s id (po.depth : Int) po false
      simp [h1, h2, h3, h4, h5, h6]
    · split <;> simp
    · obtain ⟨h1, h2, h3, h4, h5, h6⟩ :=
        instantiate_child_fields lib s id (po.depth : Int) po true
      simp [h1, h2, h3, h4, h5, h6]
  | removeObject d =>
    simp only [execTagEffect]
    split <;> try simp
    split <;> simp
  | startSound sid sev =>
    simp only [execTagEffect]
    split <;> try simp
    split <;> try simp
    split <;> try simp
    split <;> simp
  | soundStreamBlock =>
    simp only [execTagEffect]
    split <;> simp
  | _ => simp [execTagEffect]

theorem execFrameTagsLoop_fields (lib : Library) (rd : Bool) (ts : List Tag)
    (fe : FrameExec) :
    (execFrameTagsLoop lib rd ts fe).s.current_frame = fe.s.current_frame ∧
    (execFrameTagsLoop lib rd ts fe).s.total_frames = fe.s.total_frames ∧
    (execFrameTagsLoop lib rd ts fe).s.playing = fe.s.playing ∧
    (execFrameTagsLoop lib rd ts fe).s.tags = fe.s.tags := by
  induction ts generalizing fe with
  | nil => simp [execFrameTagsLoop]
  | cons t ts ih =>
    obtain ⟨h1, h2, h3, _, h5⟩ := execTagEffect_fields lib rd fe.s t
    cases t <;> simp [execFrameTagsLoop, ih, h1, h2, h3, h5]

theorem execFrameTags_fields (lib : Library) (s : MovieClipState) (rd : Bool) :
    (execFrameTags lib s rd).1.current_frame = s.current_frame ∧
    (execFrameTags lib s rd).1.total_frames = s.total_frames ∧
    (execFrameTags lib s rd).1.playing = s.playing ∧
    (execFrameTags lib s rd).1.tags = s.tags := by
  obtain ⟨h1, h2, h3, h4⟩ := execFrameTagsLoop_fields lib rd
    (s.tags.drop s.tag_stream_pos)
    { s := s, pos := s.tag_stream_pos, tr := [], has_stream_block := false }
  unfold execFrameTags
  dsimp only
  split
  · simp [h1, h2, h3, h4]
  · unfold stop_audio_stream
    dsimp only
    split <;> simp [h1, h2, h3, h4]

theorem run_goto_command_fields (lib : Library) (ir : Bool)
    (s : MovieClipState) (p : GotoPlaceObject) :
    (run_goto_command lib ir s p).1.current_frame = s.current_frame ∧
    (run_goto_command lib ir s p).1.total_frames = s.total_frames ∧
    (run_goto_command lib ir s p).1.playing = s.playing ∧
    (run_goto_command lib ir s p).1.tag_stream_pos = s.tag_stream_pos ∧
    (run_goto_command lib ir s p).1.audio_stream = s.audio_stream ∧
    (run_goto_command lib ir s p).1.tags = s.tags := by
  obtain ⟨h1, h2, h3, h4, h5, h6⟩ := instantiate_child_fields lib s p.id
    p.depth p.place_object p.modifies_original_item
  unfold run_goto_command
  split <;> try (split <;> try simp) <;>
    simp_all [instantiate_child] <;> split <;> simp_all
  repeat'
    first
    | rfl
    | constructor
    | simp [h1, h2, h3, h4, h5, h6]
    | split

theorem applyGotoCmds_fields (lib : Library) (ir : Bool)
    (cmds : List GotoPlaceObject) (s : MovieClipState) :
    (applyGotoCmds lib ir cmds s).1.current_frame = s.current_frame ∧
    (applyGotoCmds lib ir cmds s).1.total_frames = s.total_frames ∧
    (applyGotoCmds lib ir cmds s).1.playing = s.playing ∧
    (applyGotoCmds lib ir cmds s).1.tag_stream_pos = s.tag_stream_pos ∧
    (applyGotoCmds lib ir cmds s).1.audio_stream = s.audio_stream ∧
    (applyGotoCmds lib ir cmds s).1.tags = s.tags := by
  have key : ∀ (l : List GotoPlaceObject) (acc : MovieClipState × List Event),
      (l.foldl
        (fun (acc : MovieClipState × List Event) p =>
          let r := run_goto_command lib ir acc.1 p
          (r.1, acc.2 ++ r.2)) acc).1.current_frame = acc.1.current_frame ∧
      (l.foldl
        (fun (acc : MovieClipState × List Event) p =>
          let r := run_goto_command lib ir acc.1 p
          (r.1, acc.2 ++ r.2)) acc).1.total_frames = acc.1.total_frames ∧
      (l.foldl
        (fun (acc : MovieClipState × List Event) p =>
          let r := run_goto_command lib ir acc.1 p
          (r.1, acc.2 ++ r.2)) acc).1.playing = acc.1.playing ∧
      (l.foldl
        (fun (acc : MovieClipState × List Event) p =>
          let r := run_goto_command lib ir acc.1 p
          (r.1, acc.2 ++ r.2)) acc).1.tag_stream_pos = acc.1.tag_stream_pos ∧
      (l.foldl
        (fun (acc : MovieClipState × List Event) p =>
          let r := run_goto_command lib ir acc.1 p
          (r.1, acc.2 ++ r.2)) acc).1.audio_stream = acc.1.audio_stream ∧
      (l.foldl
        (fun (acc : MovieClipState × List Event) p =>
          let r := run_goto_command lib ir acc.1 p
          (r.1, acc.2 ++ r.2)) acc).1.tags = acc.1.tags := by
    intro l
    induction l with
    | nil => simp
    | cons p t ih =>
      intro acc
      obtain ⟨g1, g2, g3, g4, g5, g6⟩ := run_goto_command_fields lib ir acc.1 p
      simp [List.foldl, ih, g1, g2, g3, g4, g5, g6]
  exact key cmds (s, [])

theorem goto_remove_object_fields (d : Nat) (s : MovieClipState)
    (cmds : List GotoPlaceObject) (ir : Bool) :
    (goto_remove_object d s cmds ir).1.current_frame = s.current_frame ∧
    (goto_remove_object d s cmds ir).1.total_frames = s.total_frames ∧
    (goto_remove_object d s cmds ir).1.playing = s.playing ∧
    (goto_remove_object d s cmds ir).1.tag_stream_pos = s.tag_stream_pos ∧
    (goto_remove_object d s cmds ir).1.audio_stream = s.audio_stream ∧
    (goto_remove_object d s cmds ir).1.tags = s.tags := by
  unfold goto_remove_object
  dsimp only
  split
  · simp
  · split <;> simp

theorem gotoFrameTagsLoop_fields (ir : Bool) (ts : List Tag) (w : GotoWalk) :
    (gotoFrameTagsLoop ir ts w).s.current_frame = w.s.current_frame ∧
    (gotoFrameTagsLoop ir ts w).s.total_frames = w.s.total_frames ∧
    (gotoFrameTagsLoop ir ts w).s.playing = w.s.playing ∧
    (gotoFrameTagsLoop ir ts w).s.tag_stream_pos = w.s.tag_stream_pos ∧
    (gotoFrameTagsLoop ir ts w).s.audio_stream = w.s.audio_stream ∧
    (gotoFrameTagsLoop ir ts w).s.tags = w.s.tags := by
  induction ts generalizing w with
  | nil => simp [gotoFrameTagsLoop]
  | cons t ts ih =>
    cases t <;> simp only [gotoFrameTagsLoop] <;> try simp [ih]
    case removeObject d =>
      obtain ⟨g1, g2, g3, g4, g5, g6⟩ :=
        goto_remove_object_fields d w.s w.cmds ir
      simp [ih, g1, g2, g3, g4, g5, g6]

theorem gotoWalkLoop_fields (ir : Bool) (clamped len : Nat) (fuel : Nat)
    (w : GotoWalk) (fp : Nat) :
    (gotoWalkLoop ir clamped len fuel w fp).1.s.total_frames =
      w.s.total_frames ∧
    (gotoWalkLoop ir clamped len fuel w fp).1.s.playing = w.s.playing ∧
    (gotoWalkLoop ir clamped len fuel w fp).1.s.audio_stream =
      w.s.audio_stream ∧
    (gotoWalkLoop ir clamped len fuel w fp).1.s.tags = w.s.tags := by
  induction fuel generalizing w fp with
  | zero => simp [gotoWalkLoop]
  | succ n ih =>
    unfold gotoWalkLoop
    dsimp only
    split
    · rename_i hcond
      obtain ⟨g1, g2, g3, g4, g5, g6⟩ := gotoFrameTagsLoop_fields ir
        ((({ w with s := { w.s with current_frame := w.s.current_frame + 1 } }
           : GotoWalk).s.tags).drop w.pos)
        { w with s := { w.s with current_frame := w.s.current_frame + 1 } }
      simp [ih, g2, g3, g5, g6]
    · simp

theorem gotoRewindPhase_fields (s : MovieClipState) (frame : Nat) :
    (gotoRewindPhase s frame).1.total_frames = s.total_frames ∧
    (gotoRewindPhase s frame).1.playing = s.playing ∧
    (gotoRewindPhase s frame).1.audio_stream = s.audio_stream ∧
    (gotoRewindPhase s frame).1.tags = s.tags := by
  have key : ∀ (l : List (Int × DisplayNode))
      (acc : MovieClipState × List Event),
      (l.foldl
        (fun (acc : MovieClipState × List Event) p =>
          let m := (mapRemove acc.1.children p.1).1
          let fc := acc.1.first_child.erase p.2.nid
          ({ acc.1 with children := m, first_child := fc },
           acc.2 ++ [Event.unloadedChild { p.2 with removed := true }]))
        acc).1.total_frames = acc.1.total_frames ∧
      (l.foldl
        (fun (acc : MovieClipState × List Event) p =>
          let m := (mapRemove acc.1.children p.1).1
          let fc := acc.1.first_child.erase p.2.nid
          ({ acc.1 with children := m, first_child := fc },
           acc.2 ++ [Event.unloadedChild { p.2 with removed := true }]))
        acc).1.playing = acc.1.playing ∧
      (l.foldl
        (fun (acc : MovieClipState × List Event) p =>
          let m := (mapRemove acc.1.children p.1).1
          let fc := acc.1.first_child.erase p.2.nid
          ({ acc.1 with children := m, first_child := fc },
           acc.2 ++ [Event.unloadedChild { p.2 with removed := true }]))
        acc).1.audio_stream = acc.1.audio_stream ∧
      (l.foldl
        (fun (acc : MovieClipState × List Event) p =>
          let m := (mapRemove acc.1.children p.1).1
          let fc := acc.1.first_child.erase p.2.nid
          ({ acc.1 with children := m, first_child := fc },
           acc.2 ++ [Event.unloadedChild { p.2 with removed := true }]))
        acc).1.tags = acc.1.tags := by
    intro l
    induction l with
    | nil => simp
    | cons p t ih => intro acc; simp [List.foldl, ih]
  unfold gotoRewindPhase
  dsimp only
  split
  · exact key _ _
  · simp

theorem gotoRewindPhase_current (s : MovieClipState) (frame : Nat)
    (h : ¬ frame < s.current_frame) :
    (gotoRewindPhase s frame).1 = s ∧
    (gotoRewindPhase s frame).2.2 = false := by
  unfold gotoRewindPhase
  simp [h]

theorem stop_audio_stream_state (s : MovieClipState) :
    (stop_audio_stream s).1 = { s with audio_stream := none } := by
  cases hs : s.audio_stream with
  | none => cases s; simp_all [stop_audio_stream]
  | some h => simp [stop_audio_stream, hs]

theorem gotoRewindPhase_rewind (s : MovieClipState) (frame : Nat)
    (h : frame < s.current_frame) :
    (gotoRewindPhase s frame).1.current_frame = 0 ∧
    (gotoRewindPhase s frame).1.tag_stream_pos = 0 ∧
    (gotoRewindPhase s frame).2.2 = true := by
  have key : ∀ (l : List (Int × DisplayNode))
      (acc : MovieClipState × List Event),
      (l.foldl
        (fun (acc : MovieClipState × List Event) p =>
          let m := (mapRemove acc.1.children p.1).1
          let fc := acc.1.first_child.erase p.2.nid
          ({ acc.1 with children := m, first_child := fc },
           acc.2 ++ [Event.unloadedChild { p.2 with removed := true }]))
        acc).1.current_frame = acc.1.current_frame ∧
      (l.foldl
        (fun (acc : MovieClipState × List Event) p =>
          let m := (mapRemove acc.1.children p.1).1
          let fc := acc.1.first_child.erase p.2.nid
          ({ acc.1 with children := m, first_child := fc },
           acc.2 ++ [Event.unloadedChild { p.2 with removed := true }]))
        acc).1.tag_stream_pos = acc.1.tag_stream_pos := by
    intro l
    induction l with
    | nil => simp
    | cons p t ih => intro acc; simp [List.foldl, ih]
  unfold gotoRewindPhase
  rw [if_pos h]
  dsimp only
  refine ⟨?_, ?_, rfl⟩
  · simpa using (key _ _).1
  · simpa using (key _ _).2

theorem gotoWalkLoop_current_le (ir : Bool) (clamped len fuel : Nat)
    (w : GotoWalk) (fp : Nat) (h : w.s.current_frame ≤ clamped) :
    (gotoWalkLoop ir clamped len fuel w fp).1.s.current_frame ≤ clamped := by
  induction fuel generalizing w fp with
  | zero => simpa [gotoWalkLoop] using h
  | succ n ih =>
    unfold gotoWalkLoop
    dsimp only
    split
    · rename_i hcond
      apply ih
      have hpres := (gotoFrameTagsLoop_fields ir
        ((({ w with s := { w.s with current_frame := w.s.current_frame + 1 } }
           : GotoWalk).s.tags).drop w.pos)
        { w with s := { w.s with current_frame := w.s.current_frame + 1 } }).1
      rw [hpres]
      exact hcond.1
    · exact h

/-- Unfolding equation for `runGotoF` at positive fuel, written with the named
pipeline pieces. -/
theorem runGotoF_succ_eq (n : Nat) (lib : Library) (s : MovieClipState)
    (frame : Nat) :
    runGotoF (n + 1) lib s frame =
      (let a0 := stop_audio_stream s
       let rp := gotoRewindPhase a0.1 frame
       let wr := gotoWalkOf rp.1 frame rp.2.2
       let sorted := sortByIndex wr.1.cmds
       let p1 := applyGotoCmds lib rp.2.2
         (sorted.filter (fun params => params.frame < frame)) wr.1.s
       let mid :=
         if wr.1.s.current_frame == frame then
           let cf := u16sub1 p1.1.current_frame
           let sm := { p1.1 with current_frame := cf, tag_stream_pos := wr.2 }
           if sm.current_frame < sm.total_frames then
             execFrameTags lib
               { sm with current_frame := sm.current_frame + 1 } false
           else if 1 < sm.total_frames then
             runGotoF n lib sm 1
           else
             let st := stopClip sm
             let ex := execFrameTags lib st.1 false
             (ex.1, st.2 ++ ex.2)
         else ({ p1.1 with current_frame := gotoClamped rp.1 frame }, [])
       let p2 := applyGotoCmds lib rp.2.2
         (sorted.filter (fun params => frame ≤ params.frame)) mid.1
       (p2.1, a0.2 ++ rp.2.1 ++ wr.1.tr ++ p1.2 ++ mid.2 ++ p2.2)) := rfl

theorem u16sub1_eq (n : Nat) (h1 : 1 ≤ n) (h2 : n ≤ 65535) :
    u16sub1 n = n - 1 := by
  unfold u16sub1
  omega

theorem applyGotoCmds_current (lib : Library) (ir : Bool)
    (cmds : List GotoPlaceObject) (s : MovieClipState) :
    (applyGotoCmds lib ir cmds s).1.current_frame = s.current_frame :=
  (applyGotoCmds_fields lib ir cmds s).1

theorem applyGotoCmds_total (lib : Library) (ir : Bool)
    (cmds : List GotoPlaceObject) (s : MovieClipState) :
    (applyGotoCmds lib ir cmds s).1.total_frames = s.total_frames :=
  (applyGotoCmds_fields lib ir cmds s).2.1

theorem applyGotoCmds_playing (lib : Library) (ir : Bool)
    (cmds : List GotoPlaceObject) (s : MovieClipState) :
    (applyGotoCmds lib ir cmds s).1.playing = s.playing :=
  (applyGotoCmds_fields lib ir cmds s).2.2.1

theorem execFrameTags_current (lib : Library) (s : MovieClipState) (rd : Bool) :
    (execFrameTags lib s rd).1.current_frame = s.current_frame :=
  (execFrameTags_fields lib s rd).1

theorem execFrameTags_total (lib : Library) (s : MovieClipState) (rd : Bool) :
    (execFrameTags lib s rd).1.total_frames = s.total_frames :=
  (execFrameTags_fields lib s rd).2.1

theorem execFrameTags_playing (lib : Library) (s : MovieClipState) (rd : Bool) :
    (execFrameTags lib s rd).1.playing = s.playing :=
  (execFrameTags_fields lib s rd).2.2.1

theorem gotoClamped_le_total (s : MovieClipState) (frame : Nat) :
    gotoClamped s frame ≤ s.total_frames := by
  unfold gotoClamped
  split <;> omega

theorem gotoClamped_pos (s : MovieClipState) (frame : Nat)
    (h1 : 1 ≤ frame) (h3 : 1 ≤ s.total_frames) : 1 ≤ gotoClamped s frame := by
  unfold gotoClamped
  split <;> omega

/-- Playhead bounds for `run_goto` at any positive fuel: starting from a state
whose playhead does not exceed the frame count, with a positive target and a
`u16`-sized frame count, the final `current_frame` lies in
`[1, total_frames]`. -/
theorem runGotoF_bounds (n : Nat) (lib : Library) (s : MovieClipState)
    (frame : Nat) (h1 : 1 ≤ frame)
    (h2 : s.current_frame ≤ s.total_frames) (h3 : 1 ≤ s.total_frames)
    (h4 : s.total_frames ≤ 65535) :
    1 ≤ (runGotoF (n + 1) lib s frame).1.current_frame ∧
    (runGotoF (n + 1) lib s frame).1.current_frame ≤ s.total_frames := by
  rw [runGotoF_succ_eq]
  dsimp only
  rw [stop_audio_stream_state s]
  set s0 : MovieClipState := { s with audio_stream := none } with hs0
  set rp := gotoRewindPhase s0 frame with hrp
  have hrpt : rp.1.total_frames = s.total_frames := by
    rw [hrp]
    have h := (gotoRewindPhase_fields s0 frame).1
    rw [h, hs0]
  have hrpc : rp.1.current_frame ≤ gotoClamped rp.1 frame := by
    by_cases hr : frame < s.current_frame
    · have h0 := (gotoRewindPhase_rewind s0 frame (by rw [hs0]; exact hr)).1
      rw [hrp, h0]
      exact Nat.zero_le _
    · have h0 := (gotoRewindPhase_current s0 frame (by rw [hs0]; exact hr)).1
      rw [hrp, h0, hs0]
      dsimp only [gotoClamped]
      split <;> omega
  set wr := gotoWalkOf rp.1 frame rp.2.2 with hwr
  have hwrt : wr.1.s.total_frames = s.total_frames := by
    rw [hwr]
    unfold gotoWalkOf
    have h := (gotoWalkLoop_fields rp.2.2 (gotoClamped rp.1 frame)
      rp.1.tags.length (gotoClamped rp.1 frame)
      { s := rp.1, cmds := [], idx := 0, pos := rp.1.tag_stream_pos, tr := [] }
      rp.1.tag_stream_pos).1
    rw [h]
    exact hrpt
  have hwrc : wr.1.s.current_frame ≤ gotoClamped rp.1 frame := by
    rw [hwr]
    unfold gotoWalkOf
    exact gotoWalkLoop_current_le rp.2.2 (gotoClamped rp.1 frame)
      rp.1.tags.length (gotoClamped rp.1 frame)
      { s := rp.1, cmds := [], idx := 0, pos := rp.1.tag_stream_pos, tr := [] }
      rp.1.tag_stream_pos hrpc
  have hclampT : gotoClamped rp.1 frame ≤ s.total_frames := by
    have := gotoClamped_le_total rp.1 frame
    omega
  have hclampP : 1 ≤ gotoClamped rp.1 frame := by
    have := gotoClamped_pos rp.1 frame h1 (by omega)
    omega
  set srt := sortByIndex wr.1.cmds with hsrt
  set p1 := applyGotoCmds lib rp.2.2
    (srt.filter (fun params => params.frame < frame)) wr.1.s with hp1
  have hp1c : p1.1.current_frame = wr.1.s.current_frame := by
    rw [hp1]; exact applyGotoCmds_current _ _ _ _
  have hp1t : p1.1.total_frames = s.total_frames := by
    rw [hp1, applyGotoCmds_total]; exact hwrt
  split
  · rename_i hhit
    have hfr : wr.1.s.current_frame = frame := by simpa using hhit
    have hfle : frame ≤ s.total_frames := by
      rw [← hfr]; exact hwrc.trans hclampT
    have hsub : u16sub1 p1.1.current_frame = frame - 1 := by
      rw [hp1c, hfr]; exact u16sub1_eq frame h1 (by omega)
    rw [hsub]
    have hlt : frame - 1 < p1.1.total_frames := by rw [hp1t]; omega
    rw [if_pos hlt]
    rw [applyGotoCmds_current, execFrameTags_current]
    dsimp only
    omega
  · rw [applyGotoCmds_current]
    dsimp only
    omega

/-! Claim theorems. -/

/-- C4: `GotoPlaceObject::merge` of a new delta `n` into the existing command
`c` at the same depth: if `n`'s action is `Modify`, `c`'s action and frame are
kept; otherwise `c`'s action becomes `n`'s action and `c.frame` becomes
`n.frame`; for each of the seven optional fields, if `n` has the field it is
moved into `c` (and cleared in `n`), and otherwise `c`'s value is kept. -/
theorem C4_merge_rules (c n : GotoPlaceObject) :
    (n.place_object.action = PlaceObjectAction.modify →
      (c.merge n).1.place_object.action = c.place_object.action ∧
      (c.merge n).1.frame = c.frame) ∧
    (n.place_object.action ≠ PlaceObjectAction.modify →
      (c.merge n).1.place_object.action = n.place_object.action ∧
      (c.merge n).1.frame = n.frame) ∧
    ((c.merge n).1.place_object.matrix =
      if n.place_object.matrix.isSome then n.place_object.matrix
      else c.place_object.matrix) ∧
    ((c.merge n).1.place_object.color_transform =
      if n.place_object.color_transform.isSome then
        n.place_object.color_transform
      else c.place_object.color_transform) ∧
    ((c.merge n).1.place_object.ratio =
      if n.place_object.ratio.isSome then n.place_object.ratio
      else c.place_object.ratio) ∧
    ((c.merge n).1.place_object.name =
      if n.place_object.name.isSome then n.place_object.name
      else c.place_object.name) ∧
    ((c.merge n).1.place_object.clip_depth =
      if n.place_object.clip_depth.isSome then n.place_object.clip_depth
      else c.place_object.clip_depth) ∧
    ((c.merge n).1.place_object.class_name =
      if n.place_object.class_name.isSome then n.place_object.class_name
      else c.place_object.class_name) ∧
    ((c.merge n).1.place_object.background_color =
      if n.place_object.background_color.isSome then
        n.place_object.background_color
      else c.place_object.background_color) ∧
    ((c.merge n).2.place_object.matrix = none ∧
     (c.merge n).2.place_object.color_transform = none ∧
     (c.merge n).2.place_object.ratio = none ∧
     (c.merge n).2.place_object.name = none ∧
     (c.merge n).2.place_object.clip_depth = none ∧
     (c.merge n).2.place_object.class_name = none ∧
     (c.merge n).2.place_object.background_color = none) := by
  rcases hn : n.place_object.action with id | _ | id <;>
    simp [GotoPlaceObject.merge, hn]

/-- Witness for C4 at concrete inputs (the `Replace` branch of the action
rule). -/
theorem C4_merge_rules_witness :
    gpB.place_object.action ≠ PlaceObjectAction.modify ∧
    ((gpA.merge gpB).1.place_object.action = gpB.place_object.action ∧
     (gpA.merge gpB).1.frame = gpB.frame) :=
  ⟨by decide, (C4_merge_rules gpA gpB).2.1 (by decide)⟩

/-- C5 counterexample: a rewind-built `Place` command with every optional
field absent does not get all its optional fields defined —
`background_color` is left absent by `GotoPlaceObject::new`. -/
theorem C5_counterexample :
    ¬ (GotoPlaceObject.new 1 c5po true 0).place_object.allOptionalDefined ∧
    (GotoPlaceObject.new 1 c5po true 0).place_object.background_color =
      none := by
  constructor
  · decide
  · rfl

/-- C5 (amended): when a `GotoPlaceObject` is built during a rewind with a
`Place` action, the absent fields among matrix, color transform, ratio, name,
clip depth and class name are initialized to their defaults; the background
color is left as it was. -/
theorem C5_rewind_place_defaults (frame : Nat) (po : PlaceObject)
    (index : Nat) (id : Nat) (h : po.action = PlaceObjectAction.place id) :
    (GotoPlaceObject.new frame po true index).place_object.matrix =
      some (po.matrix.getD default) ∧
    (GotoPlaceObject.new frame po true index).place_object.color_transform =
      some (po.color_transform.getD default) ∧
    (GotoPlaceObject.new frame po true index).place_object.ratio =
      some (po.ratio.getD default) ∧
    (GotoPlaceObject.new frame po true index).place_object.name =
      some (po.name.getD default) ∧
    (GotoPlaceObject.new frame po true index).place_object.clip_depth =
      some (po.clip_depth.getD default) ∧
    (GotoPlaceObject.new frame po true index).place_object.class_name =
      some (po.class_name.getD default) ∧
    (GotoPlaceObject.new frame po true index).place_object.background_color =
      po.background_color ∧
    (GotoPlaceObject.new frame po true index).frame = frame ∧
    (GotoPlaceObject.new frame po true index).index = index := by
  simp [GotoPlaceObject.new, h]

/-- Witness for C5 (amended) at a concrete `Place` delta. -/
theorem C5_rewind_place_defaults_witness :
    c5po.action = PlaceObjectAction.place 3 ∧
    ((GotoPlaceObject.new 1 c5po true 0).place_object.matrix =
       some (c5po.matrix.getD default) ∧
     (GotoPlaceObject.new 1 c5po true 0).place_object.color_transform =
       some (c5po.color_transform.getD default) ∧
     (GotoPlaceObject.new 1 c5po true 0).place_object.ratio =
       some (c5po.ratio.getD default) ∧
     (GotoPlaceObject.new 1 c5po true 0).place_object.name =
       some (c5po.name.getD default) ∧
     (GotoPlaceObject.new 1 c5po true 0).place_object.clip_depth =
       some (c5po.clip_depth.getD default) ∧
     (GotoPlaceObject.new 1 c5po true 0).place_object.class_name =
       some (c5po.class_name.getD default) ∧
     (GotoPlaceObject.new 1 c5po true 0).place_object.background_color =
       c5po.background_color ∧
     (GotoPlaceObject.new 1 c5po true 0).frame = 1 ∧
     (GotoPlaceObject.new 1 c5po true 0).index = 0) :=
  ⟨rfl, C5_rewind_place_defaults 1 c5po 0 3 rfl⟩

/-- C6: the preload scan aborts (panics) on a stream containing a
`DefineFont4` tag — the handler is `unimplemented!()` — contradicting the
policy that every tag handler returns a result and the core never panics. -/
theorem C6_preload_definefont4_panics : preload [] c6State = none := rfl

/-- C7: frame labels are ASCII-lowercased before insertion; a duplicate keeps
the first-inserted frame and warns; `frame_label_to_number` lowercases its
query before lookup, making lookups ASCII-case-insensitive; and with "Intro"
at frame 4 and "intro" at frame 7, looking up "INTRO" yields frame 4. -/
theorem C7_frame_labels :
    (∀ (label : String) (cur : Nat) (labels : List (String × Nat)),
        labels.lookup (make_ascii_lowercase label) = none →
        frame_label label cur labels =
          (labels ++ [(make_ascii_lowercase label, cur)], false)) ∧
    (∀ (label : String) (cur n : Nat) (labels : List (String × Nat)),
        labels.lookup (make_ascii_lowercase label) = some n →
        frame_label label cur labels = (labels, true)) ∧
    (∀ (labels : List (String × Nat)) (q : String),
        frame_label_to_number labels q =
          labels.lookup (make_ascii_lowercase q)) ∧
    (∀ (labels : List (String × Nat)) (q r : String),
        make_ascii_lowercase q = make_ascii_lowercase r →
        frame_label_to_number labels q = frame_label_to_number labels r) ∧
    (frame_label_to_number
        (frame_label "intro" 7 (frame_label "Intro" 4 []).1).1 "INTRO" =
      some 4 ∧
     (frame_label "intro" 7 (frame_label "Intro" 4 []).1).2 = true) := by
  refine ⟨?_, ?_, ?_, ?_, ?_, ?_⟩
  · intro label cur labels h
    simp [frame_label, h]
  · intro label cur n labels h
    simp [frame_label, h]
  · intro labels q
    rfl
  · intro labels q r h
    unfold frame_label_to_number
    rw [h]
  · decide
  · decide

/-- Witness for C7 at the concrete vacant-insert input. -/
theorem C7_frame_labels_witness :
    ([] : List (String × Nat)).lookup (make_ascii_lowercase "Intro") = none ∧
    frame_label "Intro" 4 [] =
      ([] ++ [(make_ascii_lowercase "Intro", 4)], false) :=
  ⟨rfl, C7_frame_labels.1 "Intro" 4 [] rfl⟩

theorem run_clip_event_foldl (l : List ClipAction) (ev : ClipEvent)
    (acc : ClipEventResult × List (ActionType × Bool)) :
    l.foldl
      (fun (acc : ClipEventResult × List (ActionType × Bool)) ca =>
        ((if ca.event.isKeyPress then ClipEventResult.handled else acc.1),
         acc.2 ++ [(ActionType.normal ca.action_data,
                    ev == ClipEvent.unload)])) acc =
    ((if l.any (fun ca => ca.event.isKeyPress) then ClipEventResult.handled
      else acc.1),
     acc.2 ++ l.map (fun ca => (ActionType.normal ca.action_data,
                                ev == ClipEvent.unload))) := by
  induction l generalizing acc with
  | nil => simp
  | cons a t ih =>
    rw [List.foldl_cons, ih]
    cases ha : a.event.isKeyPress <;>
      cases ht : t.any (fun ca => ca.event.isKeyPress) <;> simp [ha, ht]

/-- C8 counterexample: at SWF version 4 the whole dispatch is skipped — a
matching `KeyPress` clip action is not queued and the dispatch returns
`NotHandled`, contradicting the claim as stated (the code gates all of it on
version ≥ 5). -/
theorem C8_counterexample :
    run_clip_event c8mnameNone 4
      [{ event := ClipEvent.keyPress 1, action_data := 9 }] (some 0)
      (ClipEvent.keyPress 1) =
    some (ClipEventResult.notHandled, []) := rfl

/-- C8 (amended): provided the SWF version is at least 5, every clip action
whose event matches is queued as a `Normal` action carrying its bytecode, in
list order; if the version is at least 6 and the event has a conventional
method name, a `Method` action on the clip's script object is queued after the
clip actions; and the dispatch returns `Handled` exactly when a matching
`KeyPress` clip action exists. -/
theorem C8_run_clip_event_dispatch (method_name : ClipEvent → Option String)
    (ver : Nat) (cas : List ClipAction) (o : Nat) (event : ClipEvent)
    (h5 : 5 ≤ ver) :
    run_clip_event method_name ver cas (some o) event =
      some
        ((if (cas.filter (fun a => a.event == event)).any
              (fun ca => ca.event.isKeyPress)
          then ClipEventResult.handled else ClipEventResult.notHandled),
         (cas.filter (fun a => a.event == event)).map
             (fun ca => (ActionType.normal ca.action_data,
                         event == ClipEvent.unload)) ++
           (if 6 ≤ ver then
              (match method_name event with
               | some nm =>
                 [(ActionType.method o nm, event == ClipEvent.unload)]
               | none => [])
            else [])) ∧
    ((cas.filter (fun a => a.event == event)).any
        (fun ca => ca.event.isKeyPress) = true →
      ∃ q, run_clip_event method_name ver cas (some o) event =
        some (ClipEventResult.handled, q)) := by
  have hbody :
      run_clip_event method_name ver cas (some o) event =
      some
        ((if (cas.filter (fun a => a.event == event)).any
              (fun ca => ca.event.isKeyPress)
          then ClipEventResult.handled else ClipEventResult.notHandled),
         (cas.filter (fun a => a.event == event)).map
             (fun ca => (ActionType.normal ca.action_data,
                         event == ClipEvent.unload)) ++
           (if 6 ≤ ver then
              (match method_name event with
               | some nm =>
                 [(ActionType.method o nm, event == ClipEvent.unload)]
               | none => [])
            else [])) := by
    unfold run_clip_event
    rw [if_pos h5]
    dsimp only
    rw [run_clip_event_foldl]
    by_cases h6 : 6 ≤ ver
    · rw [if_pos h6, if_pos h6]
      cases hm : method_name event <;> simp [hm]
    · rw [if_neg h6, if_neg h6]
      simp
  refine ⟨hbody, ?_⟩
  intro hkp
  exact ⟨_, by rw [hbody, if_pos hkp]⟩

/-- Witness for C8 (amended) at version 6 with one matching `EnterFrame`
action. -/
theorem C8_run_clip_event_dispatch_witness :
    (5 : Nat) ≤ 6 ∧
    run_clip_event c8mname6 6 [{ event := ClipEvent.enterFrame,
                                 action_data := 5 }] (some 0)
      ClipEvent.enterFrame =
    some (ClipEventResult.notHandled,
          [(ActionType.normal 5, false),
           (ActionType.method 0 "onEnterFrame", false)]) := by
  refine ⟨by decide, ?_⟩
  have h := (C8_run_clip_event_dispatch c8mname6 6
    [{ event := ClipEvent.enterFrame, action_data := 5 }] 0
    ClipEvent.enterFrame (by decide)).1
  rw [h]
  rfl

theorem gotoWalkOf_total (s : MovieClipState) (frame : Nat) (ir : Bool) :
    (gotoWalkOf s frame ir).1.s.total_frames = s.total_frames := by
  unfold gotoWalkOf
  exact (gotoWalkLoop_fields ir (gotoClamped s frame) s.tags.length
    (gotoClamped s frame)
    { s := s, cmds := [], idx := 0, pos := s.tag_stream_pos, tr := [] }
    s.tag_stream_pos).1

theorem gotoWalkOf_playing (s : MovieClipState) (frame : Nat) (ir : Bool) :
    (gotoWalkOf s frame ir).1.s.playing = s.playing := by
  unfold gotoWalkOf
  exact (gotoWalkLoop_fields ir (gotoClamped s frame) s.tags.length
    (gotoClamped s frame)
    { s := s, cmds := [], idx := 0, pos := s.tag_stream_pos, tr := [] }
    s.tag_stream_pos).2.1

theorem gotoRewindPhase_total (s : MovieClipState) (frame : Nat) :
    (gotoRewindPhase s frame).1.total_frames = s.total_frames :=
  (gotoRewindPhase_fields s frame).1

theorem gotoRewindPhase_playing (s : MovieClipState) (frame : Nat) :
    (gotoRewindPhase s frame).1.playing = s.playing :=
  (gotoRewindPhase_fields s frame).2.1

theorem stopClip_state (s : MovieClipState) :
    (stopClip s).1 = { s with playing := false, audio_stream := none } := by
  unfold stopClip
  rw [stop_audio_stream_state]

/-- A clip that is not playing stays not playing through `run_goto` at any
fuel (no part of the goto pipeline sets the `Playing` flag). -/
theorem runGotoF_playing (n : Nat) : ∀ (lib : Library) (s : MovieClipState)
    (frame : Nat), s.playing = false →
    (runGotoF n lib s frame).1.playing = false := by
  induction n with
  | zero =>
    intro lib s frame h
    simpa [runGotoF] using h
  | succ n ih =>
    intro lib s frame h
    rw [runGotoF_succ_eq]
    dsimp only
    rw [stop_audio_stream_state]
    have hwp : (gotoWalkOf
        (gotoRewindPhase { s with audio_stream := none } frame).1 frame
        (gotoRewindPhase { s with audio_stream := none } frame).2.2).1.s.playing
        = false := by
      rw [gotoWalkOf_playing, gotoRewindPhase_playing]
      exact h
    rw [applyGotoCmds_playing]
    split
    · try dsimp only
      split
      · rw [execFrameTags_playing]
        try dsimp only
        rw [applyGotoCmds_playing]
        exact hwp
      · split
        · apply ih
          try dsimp only
          rw [applyGotoCmds_playing]
          exact hwp
        · rw [execFrameTags_playing, stopClip_state]
    · try dsimp only
      rw [applyGotoCmds_playing]
      exact hwp

/-- C10: `goto_frame` updates the play state before checking the target: with
`stop = true` the `Playing` flag is cleared and the audio stream stopped, with
`stop = false` the flag is set but only when `total_frames > 1`; this happens
even when the (low-clamped) target equals the current frame, in which case no
seek is performed and `current_frame`, `tag_stream_pos` and the children are
unchanged. -/
theorem C10_goto_frame_play_state (lib : Library) (s : MovieClipState)
    (frame : Nat) :
    ((stopClip s).1.playing = false ∧ (stopClip s).1.audio_stream = none ∧
     (stopClip s).1.current_frame = s.current_frame ∧
     (stopClip s).1.tag_stream_pos = s.tag_stream_pos ∧
     (stopClip s).1.children = s.children) ∧
    ((playClip s).playing = (if 1 < s.total_frames then true else s.playing) ∧
     (playClip s).current_frame = s.current_frame ∧
     (playClip s).tag_stream_pos = s.tag_stream_pos ∧
     (playClip s).children = s.children ∧
     (playClip s).audio_stream = s.audio_stream) ∧
    (goto_frame lib s frame true).1.playing = false ∧
    ((if frame < 1 then 1 else frame) = s.current_frame →
      goto_frame lib s frame true = stopClip s ∧
      goto_frame lib s frame false = (playClip s, [])) ∧
    ((if frame < 1 then 1 else frame) ≠ s.current_frame →
      goto_frame lib s frame true =
        ((run_goto lib (stopClip s).1 (if frame < 1 then 1 else frame)).1,
         (stopClip s).2 ++
           (run_goto lib (stopClip s).1
             (if frame < 1 then 1 else frame)).2) ∧
      goto_frame lib s frame false =
        run_goto lib (playClip s) (if frame < 1 then 1 else frame)) := by
  have hpc : (playClip s).current_frame = s.current_frame := by
    unfold playClip
    split <;> rfl
  have ht : (if true = true then stopClip s else (playClip s, ([] : List Event)))
      = stopClip s := by simp
  have hf : (if false = true then stopClip s else (playClip s, ([] : List Event)))
      = (playClip s, ([] : List Event)) := by simp
  have hsc : (stopClip s).1.current_frame = s.current_frame := by
    rw [stopClip_state]
  have hsp2 : (stopClip s).1.playing = false := by rw [stopClip_state]
  refine ⟨?_, ?_, ?_, ?_, ?_⟩
  · rw [stopClip_state]
    exact ⟨rfl, rfl, rfl, rfl, rfl⟩
  · unfold playClip
    split <;> rename_i hsp <;> simp [hsp]
  · unfold goto_frame
    dsimp only
    rw [ht, hsc]
    by_cases hfe : (if frame < 1 then 1 else frame) = s.current_frame
    · rw [hfe]
      simp [hsp2]
    · rw [if_pos (by simpa [bne_iff_ne] using hfe)]
      exact runGotoF_playing 2 lib _ _ hsp2
  · intro heq
    constructor
    · unfold goto_frame
      dsimp only
      rw [ht, hsc, heq]
      simp
    · unfold goto_frame
      dsimp only
      rw [hf]
      dsimp only
      rw [hpc, heq]
      simp
  · intro hne
    constructor
    · unfold goto_frame
      dsimp only
      rw [ht, hsc]
      rw [if_pos (by simpa [bne_iff_ne] using hne)]
    · unfold goto_frame
      dsimp only
      rw [hf]
      dsimp only
      rw [hpc]
      rw [if_pos (by simpa [bne_iff_ne] using hne)]
      simp

/-- Witness for C10 at a concrete no-seek input. -/
theorem C10_goto_frame_play_state_witness :
    (if (2 : Nat) < 1 then 1 else 2) = c10State.current_frame ∧
    (goto_frame lib0 c10State 2 true = stopClip c10State ∧
     goto_frame lib0 c10State 2 false = (playClip c10State, [])) :=
  ⟨by decide,
   (C10_goto_frame_play_state lib0 c10State 2).2.2.2.1 (by decide)⟩

/-- C1 counterexample: a single-frame clip at its final frame does not return
early — `run_frame_internal` marks it stopped and still executes the tags
after the cursor (here a `DoAction` is queued), contrary to the claim's
"returns without executing any tags". -/
theorem C1_counterexample :
    (run_frame_internal lib0 c1State true).2 =
      [Event.queuedAction (ActionType.normal 7) false] ∧
    (run_frame_internal lib0 c1State true).1.playing = false ∧
    (run_frame_internal lib0 c1State true).1.tag_stream_pos = 2 := by
  refine ⟨rfl, rfl, rfl⟩

/-- C1 (amended): `run_frame_internal` on any clip: if
`current_frame < total_frames`, the frame counter is incremented and the
frame's tags are executed; otherwise if `total_frames > 1` the operation is a
goto to frame 1 and returns without executing further tags; otherwise
(single-frame clip) the clip is marked stopped and tag execution still
proceeds from the current stream position. -/
theorem C1_run_frame_internal_arms (lib : Library) (s : MovieClipState)
    (rd : Bool) :
    (s.current_frame < s.total_frames →
      run_frame_internal lib s rd =
        execFrameTags lib { s with current_frame := s.current_frame + 1 } rd ∧
      (run_frame_internal lib s rd).1.current_frame = s.current_frame + 1) ∧
    (¬ s.current_frame < s.total_frames → 1 < s.total_frames →
      run_frame_internal lib s rd = run_goto lib s 1) ∧
    (¬ s.current_frame < s.total_frames → ¬ 1 < s.total_frames →
      run_frame_internal lib s rd =
        ((execFrameTags lib (stopClip s).1 rd).1,
         (stopClip s).2 ++ (execFrameTags lib (stopClip s).1 rd).2) ∧
      (run_frame_internal lib s rd).1.playing = false) := by
  refine ⟨?_, ?_, ?_⟩
  · intro h
    have heq : run_frame_internal lib s rd =
        execFrameTags lib { s with current_frame := s.current_frame + 1 } rd := by
      unfold run_frame_internal
      rw [if_pos h]
    refine ⟨heq, ?_⟩
    rw [heq, execFrameTags_current]
  · intro h h2
    unfold run_frame_internal
    rw [if_neg h, if_pos h2]
  · intro h h2
    have heq : run_frame_internal lib s rd =
        ((execFrameTags lib (stopClip s).1 rd).1,
         (stopClip s).2 ++ (execFrameTags lib (stopClip s).1 rd).2) := by
      unfold run_frame_internal
      rw [if_neg h, if_neg h2]
    refine ⟨heq, ?_⟩
    rw [heq]
    dsimp only
    rw [execFrameTags_playing, stopClip_state]

/-- Witness for C1 (amended) at the increment arm. -/
theorem C1_run_frame_internal_arms_witness :
    c1wState.current_frame < c1wState.total_frames ∧
    (run_frame_internal lib0 c1wState true =
       execFrameTags lib0
         { c1wState with current_frame := c1wState.current_frame + 1 } true ∧
     (run_frame_internal lib0 c1wState true).1.current_frame =
       c1wState.current_frame + 1) :=
  ⟨by decide, (C1_run_frame_internal_arms lib0 c1wState true).1 (by decide)⟩

/-- C9: for every frame transition — a completed `run_frame_internal`,
`goto_frame`, or `run_goto` (with a positive target, as every caller passes) —
the playhead afterwards satisfies `1 ≤ current_frame ≤ total_frames`, given a
well-formed starting state (`current_frame ≤ total_frames` and a `u16`-sized
`total_frames ≥ 1`). -/
theorem C9_frame_bounds (lib : Library) (s : MovieClipState) (frame : Nat)
    (stop : Bool) (rd : Bool)
    (h2 : s.current_frame ≤ s.total_frames) (h3 : 1 ≤ s.total_frames)
    (h4 : s.total_frames ≤ 65535) :
    (1 ≤ (run_frame_internal lib s rd).1.current_frame ∧
     (run_frame_internal lib s rd).1.current_frame ≤ s.total_frames) ∧
    (1 ≤ (goto_frame lib s frame stop).1.current_frame ∧
     (goto_frame lib s frame stop).1.current_frame ≤ s.total_frames) ∧
    (1 ≤ frame →
      1 ≤ (run_goto lib s frame).1.current_frame ∧
      (run_goto lib s frame).1.current_frame ≤ s.total_frames) := by
  have hscur : (stopClip s).1.current_frame = s.current_frame := by
    rw [stopClip_state]
  have hstot : (stopClip s).1.total_frames = s.total_frames := by
    rw [stopClip_state]
  have hpcur : (playClip s).current_frame = s.current_frame := by
    unfold playClip
    split <;> rfl
  have hptot : (playClip s).total_frames = s.total_frames := by
    unfold playClip
    split <;> rfl
  have hf1 : 1 ≤ (if frame < 1 then 1 else frame) := by split <;> omega
  refine ⟨?_, ?_, ?_⟩
  · unfold run_frame_internal
    by_cases hlt : s.current_frame < s.total_frames
    · rw [if_pos hlt, execFrameTags_current]
      dsimp only
      omega
    · rw [if_neg hlt]
      by_cases hm : 1 < s.total_frames
      · rw [if_pos hm]
        exact runGotoF_bounds 1 lib s 1 (le_refl 1) h2 h3 h4
      · rw [if_neg hm]
        dsimp only
        rw [execFrameTags_current, stopClip_state]
        dsimp only
        omega
  · unfold goto_frame
    dsimp only
    cases stop
    · have hfe : (if false = true then stopClip s
          else (playClip s, ([] : List Event))) = (playClip s, []) := by simp
      rw [hfe]
      dsimp only
      rw [hpcur]
      by_cases hq : (if frame < 1 then 1 else frame) = s.current_frame
      · rw [hq]
        simp only [bne_self_eq_false, Bool.false_eq_true, if_false]
        rw [hpcur]
        omega
      · rw [if_pos (by simpa [bne_iff_ne] using hq)]
        dsimp only
        have hb := runGotoF_bounds 1 lib (playClip s)
          (if frame < 1 then 1 else frame) hf1
          (by rw [hpcur, hptot]; exact h2) (by rw [hptot]; exact h3)
          (by rw [hptot]; exact h4)
        rw [hptot] at hb
        exact hb
    · have hfe : (if true = true then stopClip s
          else (playClip s, ([] : List Event))) = stopClip s := by simp
      rw [hfe]
      rw [hscur]
      by_cases hq : (if frame < 1 then 1 else frame) = s.current_frame
      · rw [hq]
        simp only [bne_self_eq_false, Bool.false_eq_true, if_false]
        rw [hscur]
        omega
      · rw [if_pos (by simpa [bne_iff_ne] using hq)]
        dsimp only
        have hb := runGotoF_bounds 1 lib (stopClip s).1
          (if frame < 1 then 1 else frame) hf1
          (by rw [hscur, hstot]; exact h2) (by rw [hstot]; exact h3)
          (by rw [hstot]; exact h4)
        rw [hstot] at hb
        exact hb
  · intro h1
    exact runGotoF_bounds 1 lib s frame h1 h2 h3 h4

/-- Witness for C9 at a concrete two-frame clip at its last frame. -/
theorem C9_frame_bounds_witness :
    (c9State.current_frame ≤ c9State.total_frames ∧
     1 ≤ c9State.total_frames ∧ c9State.total_frames ≤ 65535) ∧
    (1 ≤ (run_frame_internal lib0 c9State true).1.current_frame ∧
     (run_frame_internal lib0 c9State true).1.current_frame ≤
       c9State.total_frames) :=
  ⟨⟨by decide, by decide, by decide⟩,
   (C9_frame_bounds lib0 c9State 1 true true (by decide) (by decide)
     (by decide)).1⟩

/-! Characterization of the rewind-phase eviction fold. -/

theorem rewindFold_components (E : List (Int × DisplayNode))
    (acc : MovieClipState × List Event) :
    (E.foldl
      (fun (acc : MovieClipState × List Event) p =>
        let m := (mapRemove acc.1.children p.1).1
        let fc := acc.1.first_child.erase p.2.nid
        ({ acc.1 with children := m, first_child := fc },
         acc.2 ++ [Event.unloadedChild { p.2 with removed := true }]))
      acc).1.children =
      E.foldl (fun m p => m.filter (fun q => q.1 != p.1)) acc.1.children ∧
    (E.foldl
      (fun (acc : MovieClipState × List Event) p =>
        let m := (mapRemove acc.1.children p.1).1
        let fc := acc.1.first_child.erase p.2.nid
        ({ acc.1 with children := m, first_child := fc },
         acc.2 ++ [Event.unloadedChild { p.2 with removed := true }]))
      acc).1.first_child =
      E.foldl (fun fc p => fc.erase p.2.nid) acc.1.first_child ∧
    (E.foldl
      (fun (acc : MovieClipState × List Event) p =>
        let m := (mapRemove acc.1.children p.1).1
        let fc := acc.1.first_child.erase p.2.nid
        ({ acc.1 with children := m, first_child := fc },
         acc.2 ++ [Event.unloadedChild { p.2 with removed := true }]))
      acc).2 =
      acc.2 ++ E.map (fun p => Event.unloadedChild { p.2 with removed := true }) := by
  induction E generalizing acc with
  | nil => simp
  | cons e E ih =>
    obtain ⟨i1, i2, i3⟩ := ih
      ({ acc.1 with children := (mapRemove acc.1.children e.1).1,
                    first_child := acc.1.first_child.erase e.2.nid },
       acc.2 ++ [Event.unloadedChild { e.2 with removed := true }])
    refine ⟨?_, ?_, ?_⟩
    · rw [List.foldl_cons, List.foldl_cons]
      exact i1.trans (by simp [mapRemove])
    · rw [List.foldl_cons, List.foldl_cons]
      exact i2.trans (by simp)
    · rw [List.foldl_cons, List.map_cons]
      refine i3.trans ?_
      simp

theorem foldl_filter_cons (E : List (Int × DisplayNode)) (a : Int × DisplayNode)
    (m : List (Int × DisplayNode)) (h : ∀ p ∈ E, p.1 ≠ a.1) :
    E.foldl (fun acc p => acc.filter (fun q => q.1 != p.1)) (a :: m) =
      a :: E.foldl (fun acc p => acc.filter (fun q => q.1 != p.1)) m := by
  induction E generalizing m with
  | nil => rfl
  | cons e E ih =>
    rw [List.foldl_cons, List.foldl_cons]
    have ha : a.1 ≠ e.1 := fun hq => h e (by simp) hq.symm
    have : (a :: m).filter (fun q => q.1 != e.1) =
        a :: m.filter (fun q => q.1 != e.1) := by
      simp [List.filter_cons, ha]
    rw [this]
    exact ih _ (fun p hp => h p (by simp [hp]))

theorem foldl_filter_keys (m : List (Int × DisplayNode))
    (pred : Int × DisplayNode → Bool) (hnd : (m.map Prod.fst).Nodup) :
    (m.filter pred).foldl
      (fun acc p => acc.filter (fun q => q.1 != p.1)) m =
    m.filter (fun p => !(pred p)) := by
  induction m with
  | nil => rfl
  | cons a t ih =>
    rw [List.map_cons, List.nodup_cons] at hnd
    obtain ⟨ha, ht⟩ := hnd
    have hkeys : ∀ p ∈ t, p.1 ≠ a.1 := by
      intro p hp hq
      exact ha (hq ▸ List.mem_map_of_mem Prod.fst hp)
    by_cases hpa : pred a = true
    · rw [List.filter_cons_of_pos hpa, List.foldl_cons]
      have hstep : (a :: t).filter (fun q => q.1 != a.1) = t := by
        rw [List.filter_cons_of_neg (by simp)]
        rw [List.filter_eq_self.2 (fun q hq => by simp [hkeys q hq])]
      rw [hstep, ih ht, List.filter_cons_of_neg (by simp [hpa])]
    · rw [List.filter_cons_of_neg (by simp [hpa]), foldl_filter_cons _ _ _
        (fun p hp => hkeys p (List.mem_of_mem_filter hp)), ih ht,
        List.filter_cons_of_pos (by simp [hpa])]

theorem erase_fold_preserve_not_mem (E : List (Int × DisplayNode))
    (fc : List Nat) (x : Nat) (h : x ∉ fc) :
    x ∉ E.foldl (fun fc p => fc.erase p.2.nid) fc := by
  induction E generalizing fc with
  | nil => exact h
  | cons e E ih =>
    rw [List.foldl_cons]
    exact ih _ (fun hm => h (List.mem_of_mem_erase hm))

theorem erase_fold_nodup (E : List (Int × DisplayNode)) (fc : List Nat)
    (h : fc.Nodup) : (E.foldl (fun fc p => fc.erase p.2.nid) fc).Nodup := by
  induction E generalizing fc with
  | nil => exact h
  | cons e E ih =>
    rw [List.foldl_cons]
    exact ih _ (h.erase _)

theorem erase_fold_not_mem (E : List (Int × DisplayNode)) (fc : List Nat)
    (hnd : fc.Nodup) (p : Int × DisplayNode) (hp : p ∈ E) :
    p.2.nid ∉ E.foldl (fun fc p => fc.erase p.2.nid) fc := by
  induction E generalizing fc with
  | nil => cases hp
  | cons e E ih =>
    rw [List.foldl_cons]
    rcases List.mem_cons.1 hp with he | hE
    · subst he
      exact erase_fold_preserve_not_mem E _ _ (hnd.not_mem_erase)
    · exact ih _ (hnd.erase _) hE

/-- C2: in `run_goto` with target frame `F`, `is_rewind` holds exactly when
`F < current_frame`; when rewinding, `tag_stream_pos` and `current_frame` are
reset to 0, every child with `place_frame > F` is removed from the children
map, unlinked from the execution list, and unloaded, and every child with
`place_frame ≤ F` is retained. -/
theorem C2_rewind_phase (s : MovieClipState) (frame : Nat)
    (hk : (s.children.map Prod.fst).Nodup) (hfc : s.first_child.Nodup) :
    ((gotoRewindPhase s frame).2.2 = true ↔ frame < s.current_frame) ∧
    (¬ frame < s.current_frame → gotoRewindPhase s frame = (s, [], false)) ∧
    (frame < s.current_frame →
      (gotoRewindPhase s frame).1.tag_stream_pos = 0 ∧
      (gotoRewindPhase s frame).1.current_frame = 0 ∧
      (gotoRewindPhase s frame).1.children =
        s.children.filter (fun p => p.2.place_frame ≤ frame) ∧
      (gotoRewindPhase s frame).2.1 =
        (s.children.filter (fun p => frame < p.2.place_frame)).map
          (fun p => Event.unloadedChild { p.2 with removed := true }) ∧
      (∀ p ∈ s.children.filter (fun p => frame < p.2.place_frame),
        p.2.nid ∉ (gotoRewindPhase s frame).1.first_child)) := by
  refine ⟨?_, ?_, ?_⟩
  · unfold gotoRewindPhase
    by_cases h : frame < s.current_frame
    · rw [if_pos h]
      simpa using h
    · rw [if_neg h]
      simpa using h
  · intro h
    unfold gotoRewindPhase
    rw [if_neg h]
  · intro h
    obtain ⟨r1, r2, _⟩ := gotoRewindPhase_rewind s frame h
    refine ⟨r2, r1, ?_, ?_, ?_⟩
    · unfold gotoRewindPhase
      rw [if_pos h]
      dsimp only
      rw [(rewindFold_components _ _).1]
      dsimp only
      rw [foldl_filter_keys _ _ hk]
      refine List.filter_congr (fun p _ => ?_)
      rw [← decide_not]
      exact decide_eq_decide.2 Nat.not_lt
    · unfold gotoRewindPhase
      rw [if_pos h]
      dsimp only
      rw [(rewindFold_components _ _).2.2]
      simp
    · intro p hp
      unfold gotoRewindPhase
      rw [if_pos h]
      dsimp only
      rw [(rewindFold_components _ _).2.1]
      exact erase_fold_not_mem _ _ hfc p hp

/-- Witness for C2 at a concrete rewind: a three-frame clip at frame 3 going
to frame 2 evicts the frame-3 child (node 2) and keeps the frame-1 child. -/
theorem C2_rewind_phase_witness :
    2 < c2State.current_frame ∧
    ((gotoRewindPhase c2State 2).1.tag_stream_pos = 0 ∧
     (gotoRewindPhase c2State 2).1.current_frame = 0 ∧
     (gotoRewindPhase c2State 2).1.children =
       c2State.children.filter (fun p => p.2.place_frame ≤ 2) ∧
     (gotoRewindPhase c2State 2).2.1 =
       (c2State.children.filter (fun p => 2 < p.2.place_frame)).map
         (fun p => Event.unloadedChild { p.2 with removed := true }) ∧
     (∀ p ∈ c2State.children.filter (fun p => 2 < p.2.place_frame),
       p.2.nid ∉ (gotoRewindPhase c2State 2).1.first_child)) :=
  ⟨by decide,
   (C2_rewind_phase c2State 2 (by decide) (by decide)).2.2 (by decide)⟩

theorem walk_start_le (s : MovieClipState) (frame : Nat)
    (h2 : s.current_frame ≤ s.total_frames) :
    (gotoRewindPhase s frame).1.current_frame ≤
      gotoClamped (gotoRewindPhase s frame).1 frame := by
  by_cases hr : frame < s.current_frame
  · rw [(gotoRewindPhase_rewind s frame hr).1]
    exact Nat.zero_le _
  · rw [(gotoRewindPhase_current s frame hr).1]
    unfold gotoClamped
    split <;> omega

theorem gotoWalkOf_current_le (s : MovieClipState) (frame : Nat) (ir : Bool)
    (h : s.current_frame ≤ gotoClamped s frame) :
    (gotoWalkOf s frame ir).1.s.current_frame ≤ gotoClamped s frame := by
  unfold gotoWalkOf
  exact gotoWalkLoop_current_le ir (gotoClamped s frame) s.tags.length
    (gotoClamped s frame)
    { s := s, cmds := [], idx := 0, pos := s.tag_stream_pos, tr := [] }
    s.tag_stream_pos h

/-- C3 counterexample: `gotoAndStop` past the end of a single-frame clip.  The
aggregation walk ends exactly at the clamped target frame (frame 1), yet the
final-frame re-run is skipped — `run_goto` produces no queued action and just
sets `current_frame` to the clamp — even though re-running the clamped frame
would queue its `DoAction`.  The re-run condition in the code is
`current_frame == frame` against the unclamped target, not reaching the
clamped frame. -/
theorem C3_counterexample :
    (gotoWalkOf (gotoRewindPhase (stop_audio_stream c3State).1 2).1 2
        (gotoRewindPhase (stop_audio_stream c3State).1 2).2.2).1.s.current_frame
      = gotoClamped (gotoRewindPhase (stop_audio_stream c3State).1 2).1 2 ∧
    (run_goto lib0 c3State 2).2 = [] ∧
    (run_goto lib0 c3State 2).1.current_frame = 1 ∧
    (run_frame_internal lib0
        { c3State with current_frame := 0, tag_stream_pos := 0 } false).2 =
      [Event.queuedAction (ActionType.normal 9) false] := by
  refine ⟨rfl, rfl, rfl, rfl⟩

/-- C3 (amended): in `run_goto` with target frame `F`, the target is clamped
to `total_frames` for the aggregation walk; the aggregated commands, sorted by
`index`, are applied in three passes — first every command with `frame < F`,
then, only if the walk ended exactly at the (unclamped) target `F`, the target
frame is re-executed via `run_frame_internal` with display tags disabled, then
every command with `frame ≥ F`; an out-of-bounds `F` is never "reached", so
the re-run is skipped and `current_frame` is simply set to the clamp. -/
theorem C3_goto_three_passes (lib : Library) (s : MovieClipState) (frame : Nat)
    (h1 : 1 ≤ frame) (h2 : s.current_frame ≤ s.total_frames)
    (h4 : s.total_frames ≤ 65535)
    (s0 : MovieClipState) (hs0 : s0 = (stop_audio_stream s).1)
    (rp : MovieClipState × List Event × Bool)
    (hrp : rp = gotoRewindPhase s0 frame)
    (wr : GotoWalk × Nat) (hwr : wr = gotoWalkOf rp.1 frame rp.2.2)
    (srt : List GotoPlaceObject) (hsrt : srt = sortByIndex wr.1.cmds)
    (p1 : MovieClipState × List Event)
    (hp1 : p1 = applyGotoCmds lib rp.2.2
      (srt.filter (fun params => params.frame < frame)) wr.1.s)
    (mid : MovieClipState × List Event)
    (hmid : mid =
      if wr.1.s.current_frame == frame then
        run_frame_internal lib
          { p1.1 with current_frame := u16sub1 p1.1.current_frame,
                      tag_stream_pos := wr.2 } false
      else ({ p1.1 with current_frame := gotoClamped rp.1 frame }, []))
    (p2 : MovieClipState × List Event)
    (hp2 : p2 = applyGotoCmds lib rp.2.2
      (srt.filter (fun params => frame ≤ params.frame)) mid.1) :
    run_goto lib s frame =
      (p2.1, (stop_audio_stream s).2 ++ rp.2.1 ++ wr.1.tr ++ p1.2 ++ mid.2 ++
        p2.2) ∧
    gotoClamped rp.1 frame =
      (if frame ≤ s.total_frames then frame else s.total_frames) ∧
    wr.1.s.current_frame ≤ gotoClamped rp.1 frame ∧
    ((wr.1.s.current_frame == frame) = true ↔
      wr.1.s.current_frame = frame) ∧
    (s.total_frames < frame → (wr.1.s.current_frame == frame) = false) ∧
    ((wr.1.s.current_frame == frame) = false →
      (run_goto lib s frame).1.current_frame = gotoClamped rp.1 frame) ∧
    ((wr.1.s.current_frame == frame) = true →
      (run_goto lib s frame).1.current_frame = frame) := by
  have hs0t : s0.total_frames = s.total_frames := by
    rw [hs0, stop_audio_stream_state]
  have hs0c : s0.current_frame = s.current_frame := by
    rw [hs0, stop_audio_stream_state]
  have hrpt : rp.1.total_frames = s.total_frames := by
    rw [hrp, gotoRewindPhase_total, hs0t]
  have hwrt : wr.1.s.total_frames = s.total_frames := by
    rw [hwr, gotoWalkOf_total, hrpt]
  have hwrle : wr.1.s.current_frame ≤ gotoClamped rp.1 frame := by
    rw [hwr, hrp]
    exact gotoWalkOf_current_le _ frame _
      (walk_start_le s0 frame (by rw [hs0c, hs0t]; exact h2))
  have hclamp_le : gotoClamped rp.1 frame ≤ s.total_frames := by
    have h := gotoClamped_le_total rp.1 frame
    rw [hrpt] at h
    exact h
  have hA : run_goto lib s frame =
      (p2.1, (stop_audio_stream s).2 ++ rp.2.1 ++ wr.1.tr ++ p1.2 ++ mid.2 ++
        p2.2) := by
    unfold run_goto
    rw [runGotoF_succ_eq]
    dsimp only
    rw [← hs0, ← hrp, ← hwr, ← hsrt, ← hp1]
    have hmid2 :
        (if wr.1.s.current_frame == frame then
           if u16sub1 p1.1.current_frame < p1.1.total_frames then
             execFrameTags lib
               { p1.1 with current_frame := u16sub1 p1.1.current_frame + 1,
                           tag_stream_pos := wr.2 } false
           else if 1 < p1.1.total_frames then
             runGotoF 1 lib
               { p1.1 with current_frame := u16sub1 p1.1.current_frame,
                           tag_stream_pos := wr.2 } 1
           else
             (let st := stopClip
               { p1.1 with current_frame := u16sub1 p1.1.current_frame,
                           tag_stream_pos := wr.2 }
              let ex := execFrameTags lib st.1 false
              (ex.1, st.2 ++ ex.2))
         else ({ p1.1 with current_frame := gotoClamped rp.1 frame }, [])) =
        mid := by
      rw [hmid]
      by_cases hh : (wr.1.s.current_frame == frame) = true
      · rw [if_pos hh, if_pos hh]
        have hfr : wr.1.s.current_frame = frame := by simpa using hh
        have hfle : frame ≤ s.total_frames := by
          rw [← hfr]
          exact hwrle.trans hclamp_le
        have hp1c : p1.1.current_frame = frame := by
          rw [hp1, applyGotoCmds_current, hfr]
        have hp1t : p1.1.total_frames = s.total_frames := by
          rw [hp1, applyGotoCmds_total, hwrt]
        have hsub : u16sub1 p1.1.current_frame = frame - 1 := by
          rw [hp1c]
          exact u16sub1_eq _ h1 (by omega)
        have hlt : frame - 1 < p1.1.total_frames := by rw [hp1t]; omega
        unfold run_frame_internal
        dsimp only
        rw [hsub, if_pos hlt, if_pos hlt]
      · rw [if_neg hh, if_neg hh]
    rw [hmid2, ← hp2]
  refine ⟨hA, ?_, hwrle, ?_, ?_, ?_, ?_⟩
  · unfold gotoClamped
    rw [hrpt]
  · exact beq_iff_eq
  · intro hgt
    have hne : wr.1.s.current_frame ≠ frame := by omega
    simpa using hne
  · intro hnh
    rw [hA]
    dsimp only
    rw [hp2, applyGotoCmds_current, hmid,
      if_neg (by simp [hnh] : ¬ (wr.1.s.current_frame == frame) = true)]
  · intro hh
    have hfr : wr.1.s.current_frame = frame := by simpa using hh
    have hfle : frame ≤ s.total_frames := by
      rw [← hfr]
      exact hwrle.trans hclamp_le
    have hp1c : p1.1.current_frame = frame := by
      rw [hp1, applyGotoCmds_current, hfr]
    have hp1t : p1.1.total_frames = s.total_frames := by
      rw [hp1, applyGotoCmds_total, hwrt]
    have hsub : u16sub1 p1.1.current_frame = frame - 1 := by
      rw [hp1c]
      exact u16sub1_eq _ h1 (by omega)
    have hlt : frame - 1 < p1.1.total_frames := by rw [hp1t]; omega
    rw [hA]
    dsimp only
    rw [hp2, applyGotoCmds_current, hmid, if_pos hh]
    unfold run_frame_internal
    dsimp only
    rw [hsub, if_pos hlt, execFrameTags_current]
    dsimp only
    omega

/-- Witness for C3 (amended) at a concrete in-bounds goto whose walk reaches
the target. -/
theorem C3_goto_three_passes_witness :
    (1 ≤ 2 ∧ c3wState.current_frame ≤ c3wState.total_frames ∧
     c3wState.total_frames ≤ 65535) ∧
    (run_goto lib0 c3wState 2).1.current_frame = 2 :=
  ⟨⟨by decide, by decide, by decide⟩,
   (C3_goto_three_passes lib0 c3wState 2 (by decide) (by decide) (by decide)
      _ rfl _ rfl _ rfl _ rfl _ rfl _ rfl _ rfl).2.2.2.2.2.2 (by decide)⟩

end RuffleMovieClip
